import Mathlib

/-! kube-psp-advisor: the PSP generator.

A shallow embedding of `generator/generator.go`: the extraction of container and pod
security specs from a pod spec (`GetSecuritySpecFromPodSpec` and its helpers) and their
aggregation into one pod security policy (`GeneratePSP`).

Conventions of the embedding.
* A Go pointer `*T` is an `Option T`; `nil` is `none`.
* A Go `map[K]V` is an association list with pairwise distinct keys (`GoMap`), kept in
  insertion order.  Go leaves the iteration order of a map unspecified; every `range` over a
  map is modelled as a traversal in insertion order, and the theorems below speak of
  membership and of counts only.
* Counters (`int`) are natural numbers, uids (`int64`) are integers; no arithmetic other
  than `++` is performed on them.
* `types.DefaultCaps`, `types.Version1_11`, `utils.CompareVersion` and the reading of the
  clock are not defined in `generator.go`; they are the fields of `Env`.
-/

namespace Generator

/-! ## Go maps -/

/-- A Go map, as an association list in insertion order. -/
abbrev GoMap (κ : Type) (ν : Type) := List (κ × ν)

namespace GoMap

variable {κ ν : Type} [DecidableEq κ]

/-- The value stored under `k`, if any: `v, exists := m[k]`. -/
def get? (m : GoMap κ ν) (k : κ) : Option ν :=
  match m with
  | [] => none
  | (k', v) :: rest => if k' = k then some v else get? rest k

/-- The assignment `m[k] = v`: overwrite in place, or insert at the end. -/
def set (m : GoMap κ ν) (k : κ) (v : ν) : GoMap κ ν :=
  match m with
  | [] => [(k, v)]
  | (k', v') :: rest => if k' = k then (k, v) :: rest else (k', v') :: set rest k v

/-- The statement `delete(m, k)`. -/
def delete (m : GoMap κ ν) (k : κ) : GoMap κ ν :=
  match m with
  | [] => []
  | (k', v') :: rest => if k' = k then rest else (k', v') :: delete rest k

/-- The keys of the map, in iteration order. -/
def keys (m : GoMap κ ν) : List κ := m.map Prod.fst

end GoMap

/-- Modelled from the spec: `utils.ArrayToMap` is not part of `generator.go`; it turns a
list of names into the set of these names, a `map[string]bool` with every name as a key. -/
def ArrayToMap (input : List String) : GoMap String Bool :=
  input.foldl (fun m v => m.set v true) []

/-- Modelled from the spec: `utils.MapToArray` is not part of `generator.go`; it returns the
keys of a `map[string]bool`. -/
def MapToArray (m : GoMap String Bool) : List String := m.keys

/-! ## The Kubernetes objects read by the generator -/

/-- The part of `v1.Capabilities` the generator reads. -/
structure Capabilities where
  Add : List String := []
  Drop : List String := []
deriving DecidableEq, Repr

/-- The part of `v1.SecurityContext` the generator reads. -/
structure SecurityContext where
  Capabilities : Option Capabilities := none
  Privileged : Option Bool := none
  RunAsUser : Option Int := none
  RunAsGroup : Option Int := none
  RunAsNonRoot : Option Bool := none
  ReadOnlyRootFilesystem : Option Bool := none
  AllowPrivilegeEscalation : Option Bool := none
deriving DecidableEq, Repr

/-- The part of `v1.PodSecurityContext` the generator reads. -/
structure PodSecurityContext where
  RunAsUser : Option Int := none
  RunAsGroup : Option Int := none
  RunAsNonRoot : Option Bool := none
deriving DecidableEq, Repr

/-- The part of `v1.ContainerPort` the generator reads. -/
structure ContainerPort where
  HostPort : Int := 0
deriving DecidableEq, Repr

/-- The part of `v1.VolumeMount` the generator reads. -/
structure VolumeMount where
  Name : String
  ReadOnly : Bool := false
deriving DecidableEq, Repr

/-- The part of `v1.Container` the generator reads. -/
structure Container where
  Name : String := ""
  Image : String := ""
  SecurityContext : Option SecurityContext := none
  Ports : List ContainerPort := []
  VolumeMounts : List VolumeMount := []
deriving DecidableEq, Repr

/-- The type `v1.HostPathVolumeSource`. -/
structure HostPathVolumeSource where
  Path : String
deriving DecidableEq, Repr

/-- The type `v1.VolumeSource`: one pointer field per kind of volume, in the order of the
Go declaration.  Only the host path carries data the generator reads; of the other kinds
only whether the pointer is set matters. -/
structure VolumeSource where
  HostPath : Option HostPathVolumeSource := none
  EmptyDir : Bool := false
  GCEPersistentDisk : Bool := false
  AWSElasticBlockStore : Bool := false
  GitRepo : Bool := false
  Secret : Bool := false
  NFS : Bool := false
  ISCSI : Bool := false
  Glusterfs : Bool := false
  PersistentVolumeClaim : Bool := false
  RBD : Bool := false
  FlexVolume : Bool := false
  Cinder : Bool := false
  CephFS : Bool := false
  Flocker : Bool := false
  DownwardAPI : Bool := false
  FC : Bool := false
  AzureFile : Bool := false
  ConfigMap : Bool := false
  VsphereVolume : Bool := false
  Quobyte : Bool := false
  AzureDisk : Bool := false
  PhotonPersistentDisk : Bool := false
  Projected : Bool := false
  PortworxVolume : Bool := false
  ScaleIO : Bool := false
  StorageOS : Bool := false
  CSI : Bool := false
deriving DecidableEq, Repr

/-- The fields of a volume source as reflection sees them: for each field, in declaration
order, whether it is non-nil and the `name=` part of its protobuf tag. -/
def VolumeSource.fields (s : VolumeSource) : List (Bool × String) :=
  [ (s.HostPath.isSome, "hostPath"), (s.EmptyDir, "emptyDir"),
    (s.GCEPersistentDisk, "gcePersistentDisk"),
    (s.AWSElasticBlockStore, "awsElasticBlockStore"), (s.GitRepo, "gitRepo"),
    (s.Secret, "secret"), (s.NFS, "nfs"), (s.ISCSI, "iscsi"), (s.Glusterfs, "glusterfs"),
    (s.PersistentVolumeClaim, "persistentVolumeClaim"), (s.RBD, "rbd"),
    (s.FlexVolume, "flexVolume"), (s.Cinder, "cinder"), (s.CephFS, "cephfs"),
    (s.Flocker, "flocker"), (s.DownwardAPI, "downwardAPI"), (s.FC, "fc"),
    (s.AzureFile, "azureFile"), (s.ConfigMap, "configMap"),
    (s.VsphereVolume, "vsphereVolume"), (s.Quobyte, "quobyte"), (s.AzureDisk, "azureDisk"),
    (s.PhotonPersistentDisk, "photonPersistentDisk"), (s.Projected, "projected"),
    (s.PortworxVolume, "portworxVolume"), (s.ScaleIO, "scaleIO"),
    (s.StorageOS, "storageos"), (s.CSI, "csi") ]

/-- The type `v1.Volume`. -/
structure Volume where
  Name : String
  VolumeSource : VolumeSource := {}
deriving DecidableEq, Repr

/-- The part of `v1.PodSpec` the generator reads. -/
structure PodSpec where
  Volumes : List Volume := []
  InitContainers : List Container := []
  Containers : List Container := []
  NodeName : String := ""
  HostNetwork : Bool := false
  HostPID : Bool := false
  HostIPC : Bool := false
  SecurityContext : Option PodSecurityContext := none
  AutomountServiceAccountToken : Option Bool := none
deriving DecidableEq, Repr

/-- The part of `v1.ServiceAccount` the generator reads. -/
structure ServiceAccount where
  AutomountServiceAccountToken : Option Bool := none
deriving DecidableEq, Repr

/-! ## The security specs (`advisor/types`) -/

/-- The type `types.Metadata`. -/
structure Metadata where
  Name : String := ""
  Kind : String := ""
deriving DecidableEq, Repr

/-- The type `types.ContainerSecuritySpec`, with the fields `GetSecuritySpecFromPodSpec`
fills. -/
structure ContainerSecuritySpec where
  Metadata : Metadata := {}
  ContainerName : String := ""
  ImageName : String := ""
  PodName : String := ""
  Namespace : String := ""
  HostName : String := ""
  Capabilities : List String := []
  AddedCap : List String := []
  DroppedCap : List String := []
  ReadOnlyRootFS : Bool := false
  RunAsNonRoot : Option Bool := none
  AllowPrivilegeEscalation : Option Bool := none
  Privileged : Bool := false
  RunAsGroup : Option Int := none
  RunAsUser : Option Int := none
  HostPorts : List Int := []
deriving DecidableEq, Repr

/-- The type `types.PodSecuritySpec`, with the fields `GetSecuritySpecFromPodSpec`
fills. -/
structure PodSecuritySpec where
  Metadata : Metadata := {}
  Namespace : String := ""
  HostPID : Bool := false
  HostNetwork : Bool := false
  HostIPC : Bool := false
  VolumeTypes : List String := []
  MountHostPaths : GoMap String Bool := []
deriving DecidableEq, Repr

/-! ## The policy (`k8s.io/api/policy/v1beta1`) -/

/-- The rule `v1beta1.RunAsUserStrategyMustRunAs`. -/
def RunAsUserStrategyMustRunAs : String := "MustRunAs"
/-- The rule `v1beta1.RunAsUserStrategyMustRunAsNonRoot`. -/
def RunAsUserStrategyMustRunAsNonRoot : String := "MustRunAsNonRoot"
/-- The rule `v1beta1.RunAsUserStrategyRunAsAny`. -/
def RunAsUserStrategyRunAsAny : String := "RunAsAny"
/-- The rule `v1beta1.RunAsGroupStrategyRunAsAny`. -/
def RunAsGroupStrategyRunAsAny : String := "RunAsAny"
/-- The rule `v1beta1.FSGroupStrategyRunAsAny`. -/
def FSGroupStrategyRunAsAny : String := "RunAsAny"
/-- The rule `v1beta1.SELinuxStrategyRunAsAny`. -/
def SELinuxStrategyRunAsAny : String := "RunAsAny"
/-- The rule `v1beta1.SupplementalGroupsStrategyRunAsAny`. -/
def SupplementalGroupsStrategyRunAsAny : String := "RunAsAny"

/-- The type `v1beta1.IDRange`. -/
structure IDRange where
  Min : Int
  Max : Int
deriving DecidableEq, Repr

/-- The shape shared by `RunAsUserStrategyOptions`, `RunAsGroupStrategyOptions`,
`FSGroupStrategyOptions` and `SupplementalGroupsStrategyOptions`: a rule (the empty string
when unset) and id ranges. -/
structure StrategyOptions where
  Rule : String := ""
  Ranges : List IDRange := []
deriving DecidableEq, Repr

/-- The part of `v1beta1.SELinuxStrategyOptions` the generator writes. -/
structure SELinuxStrategyOptions where
  Rule : String := ""
deriving DecidableEq, Repr

/-- The type `v1beta1.AllowedHostPath`. -/
structure AllowedHostPath where
  PathPrefix : String
  ReadOnly : Bool
deriving DecidableEq, Repr

/-- The part of `v1beta1.PodSecurityPolicySpec` the generator writes or tests; every field
starts at its zero value. -/
structure PodSecurityPolicySpec where
  Privileged : Bool := false
  DefaultAddCapabilities : List String := []
  RequiredDropCapabilities : List String := []
  AllowedCapabilities : List String := []
  Volumes : List String := []
  HostNetwork : Bool := false
  HostPID : Bool := false
  HostIPC : Bool := false
  SELinux : SELinuxStrategyOptions := {}
  RunAsUser : StrategyOptions := {}
  RunAsGroup : Option StrategyOptions := none
  SupplementalGroups : StrategyOptions := {}
  FSGroup : StrategyOptions := {}
  ReadOnlyRootFilesystem : Bool := false
  AllowPrivilegeEscalation : Option Bool := none
  AllowedHostPaths : List AllowedHostPath := []
deriving DecidableEq, Repr

/-- The type `v1beta1.PodSecurityPolicy`. -/
structure PodSecurityPolicy where
  APIVersion : String := ""
  Kind : String := ""
  Name : String := ""
  Spec : PodSecurityPolicySpec := {}
deriving DecidableEq, Repr

/-- What `generator.go` takes from outside the file. -/
structure Env where
  /-- The table `types.DefaultCaps`: the capabilities a container has by default. -/
  DefaultCaps : List String
  /-- The constant `types.Version1_11`. -/
  Version1_11 : String
  /-- The first result of `utils.CompareVersion`; the generator discards the error. -/
  CompareVersion : String → String → Bool
  /-- The reading of the clock, `time.Now().Format("20060102150405")`. -/
  now : String

/-! ## Helpers of the extractor -/

/-- The constant `volumeTypeSecret`. -/
def volumeTypeSecret : String := "secret"

/-- The function `getVolumeType`: the protobuf name of the first non-nil field of the
volume source, or the empty string when every field is nil. -/
def getVolumeType (v : Volume) : String :=
  match v.VolumeSource.fields.find? (fun f => f.1) with
  | some f => f.2
  | none => ""

/-- The function `mountServiceAccountToken`: the pod's preference first, then the service
account's, else mounted. -/
def mountServiceAccountToken (spec : PodSpec) (sa : ServiceAccount) : Bool :=
  match spec.AutomountServiceAccountToken with
  | some b => b
  | none =>
    match sa.AutomountServiceAccountToken with
    | some b => b
    | none => true

/-- The function `getVolumeTypes`. -/
def getVolumeTypes (spec : PodSpec) (sa : Option ServiceAccount) : List String :=
  let volumeTypeMap : GoMap String Bool :=
    spec.Volumes.foldl
      (fun m v => if getVolumeType v ≠ "" then m.set (getVolumeType v) true else m) []
  let volumeTypeMap :=
    if (match sa with
        | none => true
        | some a => mountServiceAccountToken spec a)
    then volumeTypeMap.set volumeTypeSecret true
    else volumeTypeMap
  MapToArray volumeTypeMap

/-- The body of the two mount loops of `getVolumeHostPaths`: record a mount's read-only
flag under the volume name, and-ed with the flag already there. -/
def recordMount (containerMountMap : GoMap String Bool) (vm : VolumeMount) :
    GoMap String Bool :=
  match containerMountMap.get? vm.Name with
  | none => containerMountMap.set vm.Name vm.ReadOnly
  | some old => containerMountMap.set vm.Name (old && vm.ReadOnly)

/-- The mount map `containerMountMap` of `getVolumeHostPaths` after its two loops: the
containers first, then the init containers. -/
def containerMountMap (spec : PodSpec) : GoMap String Bool :=
  let m : GoMap String Bool :=
    spec.Containers.foldl (fun m c => c.VolumeMounts.foldl recordMount m) []
  spec.InitContainers.foldl (fun m c => c.VolumeMounts.foldl recordMount m) m

/-- The function `getVolumeHostPaths`. -/
def getVolumeHostPaths (spec : PodSpec) : GoMap String Bool :=
  let mounts := containerMountMap spec
  spec.Volumes.foldl
    (fun hostPathMap v =>
      match v.VolumeSource.HostPath with
      | some hp =>
        match mounts.get? v.Name with
        | some ro => hostPathMap.set hp.Path ro
        | none => hostPathMap
      | none => hostPathMap)
    []

/-- The function `getRunAsUser`. -/
def getRunAsUser (sc : Option SecurityContext) (psc : Option PodSecurityContext) :
    Option Int :=
  match sc with
  | none =>
    match psc with
    | some p => p.RunAsUser
    | none => none
  | some c => c.RunAsUser

/-- The function `getRunAsGroup`. -/
def getRunAsGroup (sc : Option SecurityContext) (psc : Option PodSecurityContext) :
    Option Int :=
  match sc with
  | none =>
    match psc with
    | some p => p.RunAsGroup
    | none => none
  | some c => c.RunAsGroup

/-- The function `getHostPorts`. -/
def getHostPorts (containerPorts : List ContainerPort) : List Int :=
  containerPorts.foldl (fun hostPorts p => hostPorts ++ [p.HostPort]) []

/-- The function `getEffectiveCapablities`, over the table `defaultCaps`
(`types.DefaultCaps`). -/
def getEffectiveCapablities (defaultCaps : List String) (add drop : List String) :
    List String :=
  let dropCapMap := ArrayToMap drop
  let effectiveCaps : List String :=
    defaultCaps.foldl
      (fun effectiveCaps cap =>
        if (dropCapMap.get? cap).isNone then effectiveCaps ++ [cap] else effectiveCaps)
      []
  effectiveCaps ++ add

/-- The function `getPrivileged`. -/
def getPrivileged (sc : Option SecurityContext) : Bool :=
  match sc with
  | none => false
  | some c =>
    match c.Privileged with
    | none => false
    | some b => b

/-- The function `getRunAsNonRootUser`. -/
def getRunAsNonRootUser (sc : Option SecurityContext) (psc : Option PodSecurityContext) :
    Option Bool :=
  match sc with
  | none =>
    match psc with
    | some p => p.RunAsNonRoot
    | none => none
  | some c => c.RunAsNonRoot

/-- The function `getAllowedPrivilegeEscalation`. -/
def getAllowedPrivilegeEscalation (sc : Option SecurityContext) : Option Bool :=
  match sc with
  | none => none
  | some c => c.AllowPrivilegeEscalation

/-- The function `getReadOnlyRootFileSystem`. -/
def getReadOnlyRootFileSystem (sc : Option SecurityContext) : Bool :=
  match sc with
  | none => false
  | some c =>
    match c.ReadOnlyRootFilesystem with
    | none => false
    | some b => b

/-- The function `getCapabilities`: the add list and the drop list of a security
context. -/
def getCapabilities (sc : Option SecurityContext) : List String × List String :=
  match sc with
  | none => ([], [])
  | some c =>
    match c.Capabilities with
    | none => ([], [])
    | some caps =>
      (caps.Add.foldl (fun addList cap => addList ++ [cap]) [],
       caps.Drop.foldl (fun dropList cap => dropList ++ [cap]) [])

/-! ## The extractor -/

/-- The body of the first loop of `GetSecuritySpecFromPodSpec`: the security spec of an
init container. -/
def initContainerSpec (env : Env) (metadata : Metadata) (namespaceName : String)
    (spec : PodSpec) (container : Container) : ContainerSecuritySpec :=
  let caps := getCapabilities container.SecurityContext
  let addCapList := caps.1
  let dropCapList := caps.2
  { Metadata := metadata
    ContainerName := container.Name
    ImageName := container.Image
    PodName := metadata.Name
    Namespace := namespaceName
    HostName := spec.NodeName
    Capabilities := getEffectiveCapablities env.DefaultCaps addCapList dropCapList
    AddedCap := addCapList
    DroppedCap := dropCapList
    ReadOnlyRootFS := getReadOnlyRootFileSystem container.SecurityContext
    RunAsNonRoot := getRunAsNonRootUser container.SecurityContext spec.SecurityContext
    AllowPrivilegeEscalation := getAllowedPrivilegeEscalation container.SecurityContext
    Privileged := getPrivileged container.SecurityContext
    RunAsGroup := getRunAsGroup container.SecurityContext spec.SecurityContext
    RunAsUser := getRunAsUser container.SecurityContext spec.SecurityContext
    HostPorts := getHostPorts container.Ports }

/-- The body of the second loop of `GetSecuritySpecFromPodSpec`: the security spec of a
regular container. -/
def containerSpec (env : Env) (metadata : Metadata) (namespaceName : String)
    (spec : PodSpec) (container : Container) : ContainerSecuritySpec :=
  let caps := getCapabilities container.SecurityContext
  let addCapList := caps.1
  let dropCapList := caps.2
  { Metadata := metadata
    ContainerName := container.Name
    ImageName := container.Image
    PodName := metadata.Name
    Namespace := namespaceName
    HostName := spec.NodeName
    Capabilities := getEffectiveCapablities env.DefaultCaps addCapList dropCapList
    AddedCap := addCapList
    DroppedCap := dropCapList
    ReadOnlyRootFS := getReadOnlyRootFileSystem container.SecurityContext
    RunAsNonRoot := getRunAsNonRootUser container.SecurityContext spec.SecurityContext
    AllowPrivilegeEscalation := getAllowedPrivilegeEscalation container.SecurityContext
    Privileged := getPrivileged container.SecurityContext
    RunAsGroup := getRunAsGroup container.SecurityContext spec.SecurityContext
    RunAsUser := getRunAsUser container.SecurityContext spec.SecurityContext
    HostPorts := getHostPorts container.Ports }

/-- The function `GetSecuritySpecFromPodSpec`. -/
def GetSecuritySpecFromPodSpec (env : Env) (metadata : Metadata) (namespaceName : String)
    (spec : PodSpec) (sa : Option ServiceAccount) :
    List ContainerSecuritySpec × PodSecuritySpec :=
  let cssList : List ContainerSecuritySpec := []
  let podSecuritySpec : PodSecuritySpec :=
    { Metadata := metadata
      Namespace := namespaceName
      HostPID := spec.HostPID
      HostNetwork := spec.HostNetwork
      HostIPC := spec.HostIPC
      VolumeTypes := getVolumeTypes spec sa
      MountHostPaths := getVolumeHostPaths spec }
  let cssList :=
    spec.InitContainers.foldl
      (fun cssList container =>
        cssList ++ [initContainerSpec env metadata namespaceName spec container])
      cssList
  let cssList :=
    spec.Containers.foldl
      (fun cssList container =>
        cssList ++ [containerSpec env metadata namespaceName spec container])
      cssList
  (cssList, podSecuritySpec)

/-! ## The aggregator -/

/-- The local variables of `GeneratePSP` that its two loops update, with the policy under
construction. -/
structure GenState where
  psp : PodSecurityPolicy := {}
  addedCap : GoMap String Nat := []
  droppedCap : GoMap String Nat := []
  effectiveCap : GoMap String Bool := []
  runAsUser : GoMap Int Bool := []
  volumeTypes : GoMap String Bool := []
  hostPaths : GoMap String Bool := []
  runAsUserCount : Nat := 0
  runAsNonRootCount : Nat := 0
  notAllowPrivilegeEscationCount : Nat := 0
deriving DecidableEq, Repr

/-- The statement `m[cap]++` on a `map[string]int`: a missing key counts as zero. -/
def increment (m : GoMap String Nat) (cap : String) : GoMap String Nat :=
  m.set cap ((m.get? cap).getD 0 + 1)

/-- The body of the inner loop over `sc.MountHostPaths`: a new path takes its flag, a known
path the conjunction of the new flag and the stored one. -/
def mergeHostPath (hostPaths : GoMap String Bool) (entry : String × Bool) :
    GoMap String Bool :=
  match hostPaths.get? entry.1 with
  | none => hostPaths.set entry.1 entry.2
  | some old => hostPaths.set entry.1 (entry.2 && old)

/-- The body of the loop of `GeneratePSP` over `pssList`. -/
def pssStep (s : GenState) (sc : PodSecuritySpec) : GenState :=
  { s with
    psp.Spec.HostPID := s.psp.Spec.HostPID || sc.HostPID
    psp.Spec.HostIPC := s.psp.Spec.HostIPC || sc.HostIPC
    psp.Spec.HostNetwork := s.psp.Spec.HostNetwork || sc.HostNetwork
    volumeTypes := sc.VolumeTypes.foldl (fun m t => m.set t true) s.volumeTypes
    hostPaths := sc.MountHostPaths.foldl mergeHostPath s.hostPaths }

/-- The body of the loop of `GeneratePSP` over `cssList`. -/
def cssStep (s : GenState) (sc : ContainerSecuritySpec) : GenState :=
  { s with
    effectiveCap := sc.Capabilities.foldl (fun m cap => m.set cap true) s.effectiveCap
    addedCap := sc.AddedCap.foldl increment s.addedCap
    droppedCap := sc.DroppedCap.foldl increment s.droppedCap
    psp.Spec.Privileged := s.psp.Spec.Privileged || sc.Privileged
    psp.Spec.ReadOnlyRootFilesystem := s.psp.Spec.ReadOnlyRootFilesystem || sc.ReadOnlyRootFS
    runAsNonRootCount :=
      if sc.RunAsNonRoot = some true then s.runAsNonRootCount + 1 else s.runAsNonRootCount
    runAsUser :=
      match sc.RunAsUser with
      | some uid => s.runAsUser.set uid true
      | none => s.runAsUser
    runAsUserCount :=
      match sc.RunAsUser with
      | some _ => s.runAsUserCount + 1
      | none => s.runAsUserCount
    notAllowPrivilegeEscationCount :=
      if sc.AllowPrivilegeEscalation = some false then s.notAllowPrivilegeEscationCount + 1
      else s.notAllowPrivilegeEscationCount }

/-- The step "set allowedPrivilegeEscalation" of `GeneratePSP`. -/
def setAllowPrivilegeEscalation (s : GenState) (n : Nat) (psp : PodSecurityPolicy) :
    PodSecurityPolicy :=
  if s.notAllowPrivilegeEscationCount = n then
    { psp with Spec.AllowPrivilegeEscalation := some false }
  else psp

/-- The body of the loop over the uids of `runAsUser`: a range is appended when the rule
read back from the policy is `MustRunAsNonRoot` and the uid is not zero. -/
def appendRange (psp : PodSecurityPolicy) (uid : Int) : PodSecurityPolicy :=
  if psp.Spec.RunAsUser.Rule = RunAsUserStrategyMustRunAsNonRoot ∧ uid ≠ 0 then
    { psp with
      Spec.RunAsUser.Ranges := psp.Spec.RunAsUser.Ranges ++ [{ Min := uid, Max := uid }] }
  else psp

/-- The step "set runAsUser strategy" of `GeneratePSP`. -/
def setRunAsUserStrategy (s : GenState) (n : Nat) (psp : PodSecurityPolicy) :
    PodSecurityPolicy :=
  let psp :=
    if s.runAsNonRootCount = n then
      { psp with Spec.RunAsUser.Rule := RunAsUserStrategyMustRunAsNonRoot }
    else psp
  if s.runAsUserCount = n then
    let psp := { psp with Spec.RunAsUser.Rule := RunAsUserStrategyMustRunAs }
    s.runAsUser.keys.foldl appendRange psp
  else psp

/-- The step "set allowed host path" of `GeneratePSP`. -/
def setAllowedHostPaths (env : Env) (s : GenState) (serverGitVersion : String)
    (psp : PodSecurityPolicy) : PodSecurityPolicy :=
  let enforceReadOnly := env.CompareVersion serverGitVersion env.Version1_11
  s.hostPaths.foldl
    (fun psp entry =>
      { psp with
        Spec.AllowedHostPaths :=
          psp.Spec.AllowedHostPaths ++
            [{ PathPrefix := entry.1, ReadOnly := entry.2 || enforceReadOnly }] })
    psp

/-- The step "set limit volumes" of `GeneratePSP`. -/
def setVolumes (s : GenState) (psp : PodSecurityPolicy) : PodSecurityPolicy :=
  let volumeTypeList := MapToArray s.volumeTypes
  volumeTypeList.foldl (fun psp v => { psp with Spec.Volumes := psp.Spec.Volumes ++ [v] }) psp

/-- The first loop of the step "set allowedCapabilities" of `GeneratePSP`: every default
capability that is a key of `effectiveCap` is deleted from it. -/
def deleteDefaultCaps (defaultCap : GoMap String Bool) (effectiveCap : GoMap String Bool) :
    GoMap String Bool :=
  defaultCap.keys.foldl
    (fun m cap => if (m.get? cap).isSome then m.delete cap else m) effectiveCap

/-- The step "set allowedCapabilities" of `GeneratePSP`: the default capabilities are
deleted from the effective ones, what is left is allowed. -/
def setAllowedCapabilities (env : Env) (s : GenState) (psp : PodSecurityPolicy) :
    PodSecurityPolicy :=
  let defaultCap := ArrayToMap env.DefaultCaps
  let effectiveCap := deleteDefaultCaps defaultCap s.effectiveCap
  effectiveCap.keys.foldl
    (fun psp cap =>
      { psp with Spec.AllowedCapabilities := psp.Spec.AllowedCapabilities ++ [cap] })
    psp

/-- The step "set defaultAddCapabilities" of `GeneratePSP`. -/
def setDefaultAddCapabilities (s : GenState) (n : Nat) (psp : PodSecurityPolicy) :
    PodSecurityPolicy :=
  s.addedCap.foldl
    (fun psp kv =>
      if kv.2 = n then
        { psp with Spec.DefaultAddCapabilities := psp.Spec.DefaultAddCapabilities ++ [kv.1] }
      else psp)
    psp

/-- The step "set requiredDroppedCapabilities" of `GeneratePSP`. -/
def setRequiredDropCapabilities (s : GenState) (n : Nat) (psp : PodSecurityPolicy) :
    PodSecurityPolicy :=
  s.droppedCap.foldl
    (fun psp kv =>
      if kv.2 = n then
        { psp with
          Spec.RequiredDropCapabilities := psp.Spec.RequiredDropCapabilities ++ [kv.1] }
      else psp)
    psp

/-- The step "set to default values" of `GeneratePSP`. -/
def setDefaults (psp : PodSecurityPolicy) : PodSecurityPolicy :=
  let psp :=
    if psp.Spec.RunAsUser.Rule = "" then
      { psp with Spec.RunAsUser.Rule := RunAsUserStrategyRunAsAny }
    else psp
  let psp :=
    match psp.Spec.RunAsGroup with
    | some g =>
      if g.Rule = "" then
        { psp with Spec.RunAsGroup := some { g with Rule := RunAsGroupStrategyRunAsAny } }
      else psp
    | none => psp
  let psp :=
    if psp.Spec.FSGroup.Rule = "" then
      { psp with Spec.FSGroup.Rule := FSGroupStrategyRunAsAny }
    else psp
  let psp :=
    if psp.Spec.SELinux.Rule = "" then
      { psp with Spec.SELinux.Rule := SELinuxStrategyRunAsAny }
    else psp
  if psp.Spec.SupplementalGroups.Rule = "" then
    { psp with Spec.SupplementalGroups.Rule := SupplementalGroupsStrategyRunAsAny }
  else psp

/-- The state of `GeneratePSP` after its two loops, started from the policy `psp`. -/
def collect (cssList : List ContainerSecuritySpec) (pssList : List PodSecuritySpec)
    (psp : PodSecurityPolicy) : GenState :=
  cssList.foldl cssStep (pssList.foldl pssStep { psp := psp })

/-- The function `GeneratePSP`: `none` is the Go `nil`. -/
def GeneratePSP (env : Env) (cssList : List ContainerSecuritySpec)
    (pssList : List PodSecuritySpec) (namespaceName : String) (serverGitVersion : String) :
    Option PodSecurityPolicy :=
  if cssList.length = 0 ∧ pssList.length = 0 then none
  else
    let psp : PodSecurityPolicy := {}
    let psp := { psp with APIVersion := "policy/v1beta1", Kind := "PodSecurityPolicy" }
    let ns := if namespaceName = "" then "all" else namespaceName
    let psp := { psp with Name := "pod-security-policy" ++ "-" ++ ns ++ "-" ++ env.now }
    let s := collect cssList pssList psp
    let psp := s.psp
    let psp := setAllowPrivilegeEscalation s cssList.length psp
    let psp := setRunAsUserStrategy s cssList.length psp
    let psp := setAllowedHostPaths env s serverGitVersion psp
    let psp := setVolumes s psp
    let psp := setAllowedCapabilities env s psp
    let psp := setDefaultAddCapabilities s cssList.length psp
    let psp := setRequiredDropCapabilities s cssList.length psp
    some (setDefaults psp)

/-- The capability table of the examples: the default capabilities of a container
runtime. -/
def exampleCaps : List String :=
  ["SETPCAP", "MKNOD", "AUDIT_WRITE", "CHOWN", "NET_RAW", "DAC_OVERRIDE", "FOWNER", "FSETID",
   "KILL", "SETGID", "SETUID", "NET_BIND_SERVICE", "SYS_CHROOT", "SETFCAP"]

/-- The environment of the examples: the table `exampleCaps`, a fixed clock, and a version
comparison that answers `enforce` whatever the versions. -/
def exampleEnv (enforce : Bool) : Env :=
  { DefaultCaps := exampleCaps
    Version1_11 := "v1.11"
    CompareVersion := fun _ _ => enforce
    now := "20200101000000" }


/-- Three container specs that all declare runAsNonRoot, the last one without a uid. -/
def exampleNonRoot : List ContainerSecuritySpec :=
  [ { ContainerName := "a", RunAsNonRoot := some true, RunAsUser := some 1000 },
    { ContainerName := "b", RunAsNonRoot := some true, RunAsUser := some 1001 },
    { ContainerName := "c", RunAsNonRoot := some true } ]

/-- The container spec A of the worked example: NET_ADMIN added, CHOWN dropped. -/
def exampleA (defaultCaps : List String) : ContainerSecuritySpec :=
  { ContainerName := "A"
    AddedCap := ["NET_ADMIN"]
    DroppedCap := ["CHOWN"]
    Privileged := false
    Capabilities := getEffectiveCapablities defaultCaps ["NET_ADMIN"] ["CHOWN"] }

/-- The container spec B of the worked example: CHOWN dropped, privileged. -/
def exampleB (defaultCaps : List String) : ContainerSecuritySpec :=
  { ContainerName := "B"
    AddedCap := []
    DroppedCap := ["CHOWN"]
    Privileged := true
    Capabilities := getEffectiveCapablities defaultCaps [] ["CHOWN"] }

/-- The container spec C of the worked example: nothing added, nothing dropped. -/
def exampleC (defaultCaps : List String) : ContainerSecuritySpec :=
  { ContainerName := "C"
    AddedCap := []
    DroppedCap := []
    Privileged := false
    Capabilities := getEffectiveCapablities defaultCaps [] [] }

/-- The container specs A, B and C of the worked example. -/
def exampleABC (defaultCaps : List String) : List ContainerSecuritySpec :=
  [exampleA defaultCaps, exampleB defaultCaps, exampleC defaultCaps]

/-- Two container specs that both set allowPrivilegeEscalation to false. -/
def exampleNoEscalation : List ContainerSecuritySpec :=
  [ { ContainerName := "a", AllowPrivilegeEscalation := some false },
    { ContainerName := "b", AllowPrivilegeEscalation := some false } ]

/-- Whether every read-only flag that the entries record for `path` is true: the
conjunction of these flags. -/
def entriesReadOnly (entries : GoMap String Bool) (path : String) : Bool :=
  entries.all (fun e => !(decide (e.1 = path)) || e.2)

/-- The conjunction of the read-only flags recorded for `path` in every pod spec that
reports it. -/
def mergedReadOnly (pssList : List PodSecuritySpec) (path : String) : Bool :=
  pssList.all (fun ps => entriesReadOnly ps.MountHostPaths path)

/-- The pod spec A of the host-path example: "/data" mounted read-only. -/
def examplePodA : PodSecuritySpec := { MountHostPaths := [("/data", true)] }

/-- The pod spec B of the host-path example: "/data" mounted writable. -/
def examplePodB : PodSecuritySpec := { MountHostPaths := [("/data", false)] }

/-- A pod with one container, no volume, and every optional field unset. -/
def examplePodPlain : PodSpec := { Containers := [{ Name := "app", Image := "app:1" }] }

/-- The automount decision by the opt-out resolution order alone: the pod-level flag when
it is set, whether or not a service account is supplied; otherwise the flag of the service
account when one is supplied and sets it; otherwise mounted. -/
def resolvedAutomount (spec : PodSpec) (sa : Option ServiceAccount) : Bool :=
  match spec.AutomountServiceAccountToken with
  | some b => b
  | none =>
    match sa with
    | some a =>
      match a.AutomountServiceAccountToken with
      | some b => b
      | none => true
    | none => true

/-- A pod that opts out of the token mount and declares an emptyDir volume only. -/
def examplePodOptOut : PodSpec :=
  { Containers := [{ Name := "app", Image := "app:1" }]
    Volumes := [{ Name := "cache", VolumeSource := { EmptyDir := true } }]
    AutomountServiceAccountToken := some false }

/-- A pod whose security context sets RunAsUser, RunAsGroup and RunAsNonRoot, with one
container whose own security context sets Privileged only. -/
def examplePodFallback : PodSpec :=
  { Containers :=
      [{ Name := "app", Image := "app:1", SecurityContext := some { Privileged := some false } }]
    SecurityContext :=
      some { RunAsUser := some 1000, RunAsGroup := some 3000, RunAsNonRoot := some true } }

/-- A pod whose first container adds SYS_TIME twice and whose second container adds no
capability. -/
def examplePodAddTwice : PodSpec :=
  { Containers :=
      [ { Name := "clock"
          SecurityContext :=
            some { Capabilities := some { Add := ["SYS_TIME", "SYS_TIME"] } } },
        { Name := "app" } ] }

/-- A pod whose only container adds SYS_TIME twice. -/
def examplePodAddTwiceAlone : PodSpec :=
  { Containers :=
      [ { Name := "clock"
          SecurityContext :=
            some { Capabilities := some { Add := ["SYS_TIME", "SYS_TIME"] } } } ] }

/-- The number of times the lists `f sc` of the container specs name `c`, all container
specs together. -/
def occurrences (f : ContainerSecuritySpec → List String) (css : List ContainerSecuritySpec)
    (c : String) : Nat :=
  (css.map (fun sc => (f sc).count c)).sum

/-- A pod whose first container drops NET_RAW twice and whose second container drops no
capability. -/
def examplePodDropTwice : PodSpec :=
  { Containers :=
      [ { Name := "web"
          SecurityContext :=
            some { Capabilities := some { Drop := ["NET_RAW", "NET_RAW"] } } },
        { Name := "app" } ] }

/-- A pod whose only container drops NET_RAW twice. -/
def examplePodDropTwiceAlone : PodSpec :=
  { Containers :=
      [ { Name := "web"
          SecurityContext :=
            some { Capabilities := some { Drop := ["NET_RAW", "NET_RAW"] } } } ] }

/-- One container spec and no pod spec: the smallest input that yields a policy. -/
def exampleSingle : List ContainerSecuritySpec := [{ ContainerName := "app" }]

/-- A pod with an init container and two regular containers. -/
def examplePodInit : PodSpec :=
  { InitContainers := [{ Name := "setup", Image := "setup:1" }]
    Containers := [{ Name := "app", Image := "app:1" }, { Name := "sidecar", Image := "side:1" }] }

/-- Three container specs that all declare runAsNonRoot and a uid other than zero. -/
def exampleUids : List ContainerSecuritySpec :=
  [ { ContainerName := "a", RunAsNonRoot := some true, RunAsUser := some 1000 },
    { ContainerName := "b", RunAsNonRoot := some true, RunAsUser := some 1001 },
    { ContainerName := "c", RunAsNonRoot := some true, RunAsUser := some 1000 } ]

/-- A pod with two host-path volumes on the same path "/data": the first is mounted
writable by one container, the second read-only by another. -/
def examplePodSharedPath : PodSpec :=
  { Volumes :=
      [ { Name := "data-rw", VolumeSource := { HostPath := some { Path := "/data" } } },
        { Name := "data-ro", VolumeSource := { HostPath := some { Path := "/data" } } } ]
    Containers :=
      [ { Name := "writer", VolumeMounts := [{ Name := "data-rw", ReadOnly := false }] },
        { Name := "reader", VolumeMounts := [{ Name := "data-ro", ReadOnly := true }] } ] }

/-- The pod `examplePodSharedPath` with its two volumes declared in the other order. -/
def examplePodSharedPathSwapped : PodSpec :=
  { examplePodSharedPath with Volumes := examplePodSharedPath.Volumes.reverse }

/-- A pod whose only container both adds and drops NET_ADMIN. -/
def examplePodAddAndDrop : PodSpec :=
  { Containers :=
      [ { Name := "net"
          SecurityContext :=
            some { Capabilities := some { Add := ["NET_ADMIN"], Drop := ["NET_ADMIN"] } } } ] }

/-- A pod with two containers that both drop NET_RAW, the first one adding NET_ADMIN. -/
def examplePodDropNetRaw : PodSpec :=
  { Containers :=
      [ { Name := "net"
          SecurityContext :=
            some { Capabilities := some { Add := ["NET_ADMIN"], Drop := ["NET_RAW"] } } },
        { Name := "app"
          SecurityContext := some { Capabilities := some { Drop := ["NET_RAW"] } } } ] }

/-- Two policies agree in every scalar field, strategy rules included, and have the same
members in every list field: allowed host paths with their read-only flags, volume types,
and allowed, default-add and required-drop capabilities. -/
def samePolicy (a b : PodSecurityPolicy) : Prop :=
  a.APIVersion = b.APIVersion ∧ a.Kind = b.Kind ∧ a.Name = b.Name ∧
  a.Spec.HostPID = b.Spec.HostPID ∧ a.Spec.HostIPC = b.Spec.HostIPC ∧
  a.Spec.HostNetwork = b.Spec.HostNetwork ∧
  a.Spec.Privileged = b.Spec.Privileged ∧
  a.Spec.ReadOnlyRootFilesystem = b.Spec.ReadOnlyRootFilesystem ∧
  a.Spec.AllowPrivilegeEscalation = b.Spec.AllowPrivilegeEscalation ∧
  a.Spec.RunAsUser = b.Spec.RunAsUser ∧ a.Spec.RunAsGroup = b.Spec.RunAsGroup ∧
  a.Spec.SELinux = b.Spec.SELinux ∧
  a.Spec.SupplementalGroups = b.Spec.SupplementalGroups ∧
  a.Spec.FSGroup = b.Spec.FSGroup ∧
  (∀ x, x ∈ a.Spec.AllowedHostPaths ↔ x ∈ b.Spec.AllowedHostPaths) ∧
  (∀ x, x ∈ a.Spec.Volumes ↔ x ∈ b.Spec.Volumes) ∧
  (∀ x, x ∈ a.Spec.AllowedCapabilities ↔ x ∈ b.Spec.AllowedCapabilities) ∧
  (∀ x, x ∈ a.Spec.DefaultAddCapabilities ↔ x ∈ b.Spec.DefaultAddCapabilities) ∧
  (∀ x, x ∈ a.Spec.RequiredDropCapabilities ↔ x ∈ b.Spec.RequiredDropCapabilities)

/-- Two results of `GeneratePSP` agree: both nil, or two policies that agree. -/
def sameResult (a b : Option PodSecurityPolicy) : Prop :=
  match a, b with
  | none, none => True
  | some x, some y => samePolicy x y
  | _, _ => False

/-- Two pod security specs with different flags, volume types and host paths. -/
def examplePodSpecs : List PodSecuritySpec :=
  [ { HostPID := true, VolumeTypes := ["hostPath", "secret"],
      MountHostPaths := [("/data", true), ("/var/log", false)] },
    { HostNetwork := true, VolumeTypes := ["secret", "emptyDir"],
      MountHostPaths := [("/data", false)] } ]

/-! ## Facts about Go maps -/

namespace GoMap

variable {κ ν : Type} [DecidableEq κ]

theorem get?_set (m : GoMap κ ν) (k k' : κ) (v : ν) :
    (m.set k v).get? k' = if k = k' then some v else m.get? k' := by
  induction m with
  | nil => simp [set, get?]
  | cons a rest ih =>
    obtain ⟨k0, v0⟩ := a
    by_cases h : k0 = k
    · subst h
      by_cases h' : k0 = k' <;> simp [set, get?, h']
    · by_cases h' : k0 = k'
      · subst h'
        have : ¬ k = k0 := fun e => h e.symm
        simp [set, get?, h, this]
      · simp [set, get?, h, h', ih]

theorem mem_keys_set (m : GoMap κ ν) (k k' : κ) (v : ν) :
    k' ∈ (m.set k v).keys ↔ k' = k ∨ k' ∈ m.keys := by
  induction m with
  | nil => simp [set, keys]
  | cons a rest ih =>
    obtain ⟨k0, v0⟩ := a
    by_cases h : k0 = k
    · subst h
      simp [set, keys]
    · simp only [keys] at ih
      simp [set, keys, h, ih]
      tauto

theorem nodup_keys_set (m : GoMap κ ν) (k : κ) (v : ν) (h : m.keys.Nodup) :
    (m.set k v).keys.Nodup := by
  induction m with
  | nil => simp [set, keys]
  | cons a rest ih =>
    obtain ⟨k0, v0⟩ := a
    have h1 : k0 ∉ keys rest ∧ (keys rest).Nodup := by simpa [keys] using h
    by_cases hk : k0 = k
    · subst hk
      simpa [set, keys] using h
    · have h2 : k0 ∉ keys (set rest k v) := by
        rw [mem_keys_set]
        rintro (e | e)
        · exact hk e
        · exact h1.1 e
      have h3 := ih h1.2
      simp only [keys] at h2 h3
      simp [set, keys, hk, h2, h3]

theorem get?_eq_none_iff (m : GoMap κ ν) (k : κ) : m.get? k = none ↔ k ∉ m.keys := by
  induction m with
  | nil => simp [get?, keys]
  | cons a rest ih =>
    obtain ⟨k0, v0⟩ := a
    simp only [keys] at ih
    by_cases h : k0 = k
    · simp [get?, keys, h]
    · have : ¬ k = k0 := fun e => h e.symm
      simp [get?, keys, h, ih, this]

theorem get?_isSome_iff (m : GoMap κ ν) (k : κ) : (m.get? k).isSome ↔ k ∈ m.keys := by
  rw [← not_iff_not, ← get?_eq_none_iff]
  cases m.get? k <;> simp

theorem mem_iff_get? (m : GoMap κ ν) (h : m.keys.Nodup) (k : κ) (v : ν) :
    (k, v) ∈ m ↔ m.get? k = some v := by
  induction m with
  | nil => simp [get?]
  | cons a rest ih =>
    obtain ⟨k0, v0⟩ := a
    have h1 : k0 ∉ keys rest ∧ (keys rest).Nodup := by simpa [keys] using h
    by_cases hk : k0 = k
    · subst hk
      have : (k0, v) ∉ rest := fun hm => h1.1 (List.mem_map.2 ⟨(k0, v), hm, rfl⟩)
      simp [get?, this]
      exact eq_comm
    · have : ¬ k = k0 := fun e => hk e.symm
      simp [get?, hk, this, ih h1.2]

theorem mem_keys_delete (m : GoMap κ ν) (h : m.keys.Nodup) (k k' : κ) :
    k' ∈ (m.delete k).keys ↔ k' ≠ k ∧ k' ∈ m.keys := by
  induction m with
  | nil => simp [delete, keys]
  | cons a rest ih =>
    obtain ⟨k0, v0⟩ := a
    have h1 : k0 ∉ keys rest ∧ (keys rest).Nodup := by simpa [keys] using h
    have ih := ih h1.2
    simp only [keys] at ih h1
    by_cases hk : k0 = k
    · subst hk
      simp only [delete, keys, if_true, List.map_cons, List.mem_cons]
      constructor
      · intro hm
        exact ⟨fun e => h1.1 (e ▸ hm), Or.inr hm⟩
      · rintro ⟨h2, h3 | h3⟩
        · exact absurd h3 h2
        · exact h3
    · simp only [delete, keys, hk, if_false, List.map_cons, List.mem_cons, ih]
      constructor
      · rintro (e | ⟨e1, e2⟩)
        · exact ⟨fun e' => hk (e ▸ e'), Or.inl e⟩
        · exact ⟨e1, Or.inr e2⟩
      · rintro ⟨e1, e | e⟩
        · exact Or.inl e
        · exact Or.inr ⟨e1, e⟩

theorem nodup_keys_delete (m : GoMap κ ν) (h : m.keys.Nodup) (k : κ) :
    (m.delete k).keys.Nodup := by
  induction m with
  | nil => simp [delete, keys]
  | cons a rest ih =>
    obtain ⟨k0, v0⟩ := a
    have h1 : k0 ∉ keys rest ∧ (keys rest).Nodup := by simpa [keys] using h
    by_cases hk : k0 = k
    · simpa [delete, hk] using h1.2
    · have h2 : k0 ∉ keys (delete rest k) := by
        rw [mem_keys_delete _ h1.2]
        exact fun e => h1.1 e.2
      have h3 := ih h1.2
      simp only [keys] at h2 h3
      simp [delete, keys, hk, h2, h3]

end GoMap

/-! ## Closed forms of the loops -/

theorem mem_keys_foldl_set (l : List String) (m : GoMap String Bool) (k : String) :
    k ∈ GoMap.keys (l.foldl (fun m t => m.set t true) m) ↔ k ∈ l ∨ k ∈ m.keys := by
  induction l generalizing m with
  | nil => simp
  | cons a rest ih =>
    simp only [List.foldl_cons, ih, GoMap.mem_keys_set, List.mem_cons]
    tauto

theorem nodup_keys_foldl_set (l : List String) (m : GoMap String Bool)
    (h : m.keys.Nodup) : (GoMap.keys (l.foldl (fun m t => m.set t true) m)).Nodup := by
  induction l generalizing m with
  | nil => simpa using h
  | cons a rest ih => exact ih _ (GoMap.nodup_keys_set m a true h)

theorem mem_keys_ArrayToMap (l : List String) (k : String) :
    k ∈ (ArrayToMap l).keys ↔ k ∈ l := by
  unfold ArrayToMap
  rw [mem_keys_foldl_set]
  simp [GoMap.keys]

theorem setAllowPrivilegeEscalation_eq (s : GenState) (n : Nat) (psp : PodSecurityPolicy) :
    setAllowPrivilegeEscalation s n psp =
      { psp with
        Spec.AllowPrivilegeEscalation :=
          if s.notAllowPrivilegeEscationCount = n then some false
          else psp.Spec.AllowPrivilegeEscalation } := by
  unfold setAllowPrivilegeEscalation
  split_ifs <;> rfl

theorem foldl_appendRange_MustRunAs (uids : List Int) (psp : PodSecurityPolicy)
    (h : psp.Spec.RunAsUser.Rule = RunAsUserStrategyMustRunAs) :
    uids.foldl appendRange psp = psp := by
  induction uids with
  | nil => rfl
  | cons uid rest ih =>
    have hne : ¬ (psp.Spec.RunAsUser.Rule = RunAsUserStrategyMustRunAsNonRoot ∧ uid ≠ 0) := by
      rw [h]
      intro hc
      exact absurd hc.1 (by decide)
    simp only [List.foldl_cons, appendRange, if_neg hne]
    exact ih

theorem setRunAsUserStrategy_eq (s : GenState) (n : Nat) (psp : PodSecurityPolicy) :
    setRunAsUserStrategy s n psp =
      { psp with
        Spec.RunAsUser.Rule :=
          if s.runAsUserCount = n then RunAsUserStrategyMustRunAs
          else if s.runAsNonRootCount = n then RunAsUserStrategyMustRunAsNonRoot
          else psp.Spec.RunAsUser.Rule } := by
  unfold setRunAsUserStrategy
  by_cases h1 : s.runAsUserCount = n
  · simp only [h1, if_true]
    rw [foldl_appendRange_MustRunAs _ _ rfl]
    split_ifs <;> rfl
  · simp only [h1, if_false]
    split_ifs <;> rfl

theorem setAllowedHostPaths_eq (env : Env) (s : GenState) (ver : String)
    (psp : PodSecurityPolicy) :
    setAllowedHostPaths env s ver psp =
      { psp with
        Spec.AllowedHostPaths :=
          psp.Spec.AllowedHostPaths ++
            s.hostPaths.map (fun entry =>
              { PathPrefix := entry.1
                ReadOnly := entry.2 || env.CompareVersion ver env.Version1_11 }) } := by
  unfold setAllowedHostPaths
  generalize s.hostPaths = l
  induction l generalizing psp with
  | nil => simp
  | cons a rest ih => simp [ih]

theorem setVolumes_eq (s : GenState) (psp : PodSecurityPolicy) :
    setVolumes s psp =
      { psp with Spec.Volumes := psp.Spec.Volumes ++ MapToArray s.volumeTypes } := by
  unfold setVolumes
  generalize MapToArray s.volumeTypes = l
  induction l generalizing psp with
  | nil => simp
  | cons a rest ih => simp [ih]

theorem setAllowedCapabilities_eq (env : Env) (s : GenState) (psp : PodSecurityPolicy) :
    setAllowedCapabilities env s psp =
      { psp with
        Spec.AllowedCapabilities :=
          psp.Spec.AllowedCapabilities ++
            (deleteDefaultCaps (ArrayToMap env.DefaultCaps) s.effectiveCap).keys } := by
  unfold setAllowedCapabilities
  simp only []
  generalize GoMap.keys (deleteDefaultCaps (ArrayToMap env.DefaultCaps) s.effectiveCap) = l
  induction l generalizing psp with
  | nil => simp
  | cons a rest ih => simp [ih]

theorem setDefaultAddCapabilities_eq (s : GenState) (n : Nat) (psp : PodSecurityPolicy) :
    setDefaultAddCapabilities s n psp =
      { psp with
        Spec.DefaultAddCapabilities :=
          psp.Spec.DefaultAddCapabilities ++
            (s.addedCap.filter (fun kv => kv.2 = n)).map Prod.fst } := by
  unfold setDefaultAddCapabilities
  generalize s.addedCap = l
  induction l generalizing psp with
  | nil => simp
  | cons a rest ih =>
    by_cases h : a.2 = n <;> simp [ih, h]

theorem setRequiredDropCapabilities_eq (s : GenState) (n : Nat) (psp : PodSecurityPolicy) :
    setRequiredDropCapabilities s n psp =
      { psp with
        Spec.RequiredDropCapabilities :=
          psp.Spec.RequiredDropCapabilities ++
            (s.droppedCap.filter (fun kv => kv.2 = n)).map Prod.fst } := by
  unfold setRequiredDropCapabilities
  generalize s.droppedCap = l
  induction l generalizing psp with
  | nil => simp
  | cons a rest ih =>
    by_cases h : a.2 = n <;> simp [ih, h]

theorem foldl_cssStep (css : List ContainerSecuritySpec) (s : GenState) :
    css.foldl cssStep s =
      { s with
        effectiveCap :=
          css.foldl (fun m sc => sc.Capabilities.foldl (fun m cap => m.set cap true) m)
            s.effectiveCap
        addedCap := css.foldl (fun m sc => sc.AddedCap.foldl increment m) s.addedCap
        droppedCap := css.foldl (fun m sc => sc.DroppedCap.foldl increment m) s.droppedCap
        psp.Spec.Privileged := s.psp.Spec.Privileged || css.any (fun sc => sc.Privileged)
        psp.Spec.ReadOnlyRootFilesystem :=
          s.psp.Spec.ReadOnlyRootFilesystem || css.any (fun sc => sc.ReadOnlyRootFS)
        runAsNonRootCount :=
          s.runAsNonRootCount + css.countP (fun sc => sc.RunAsNonRoot = some true)
        runAsUser :=
          css.foldl
            (fun m sc =>
              match sc.RunAsUser with
              | some uid => m.set uid true
              | none => m)
            s.runAsUser
        runAsUserCount := s.runAsUserCount + css.countP (fun sc => sc.RunAsUser.isSome)
        notAllowPrivilegeEscationCount :=
          s.notAllowPrivilegeEscationCount +
            css.countP (fun sc => sc.AllowPrivilegeEscalation = some false) } := by
  induction css generalizing s with
  | nil => simp
  | cons sc rest ih =>
    rw [List.foldl_cons, ih]
    simp only [cssStep, List.foldl_cons, List.any_cons, List.countP_cons, Bool.or_assoc]
    cases h1 : sc.RunAsUser <;> by_cases h2 : sc.RunAsNonRoot = some true <;>
      by_cases h3 : sc.AllowPrivilegeEscalation = some false <;>
      simp [h2, h3, Nat.add_assoc, Nat.add_comm]

theorem foldl_pssStep (pss : List PodSecuritySpec) (s : GenState) :
    pss.foldl pssStep s =
      { s with
        psp.Spec.HostPID := s.psp.Spec.HostPID || pss.any (fun sc => sc.HostPID)
        psp.Spec.HostIPC := s.psp.Spec.HostIPC || pss.any (fun sc => sc.HostIPC)
        psp.Spec.HostNetwork := s.psp.Spec.HostNetwork || pss.any (fun sc => sc.HostNetwork)
        volumeTypes :=
          pss.foldl (fun m sc => sc.VolumeTypes.foldl (fun m t => m.set t true) m)
            s.volumeTypes
        hostPaths :=
          pss.foldl (fun m sc => sc.MountHostPaths.foldl mergeHostPath m) s.hostPaths } := by
  induction pss generalizing s with
  | nil => simp
  | cons sc rest ih =>
    rw [List.foldl_cons, ih]
    simp only [pssStep, List.foldl_cons, List.any_cons, Bool.or_assoc]

/-- The policy `GeneratePSP` returns, field by field, when one of its lists is not empty. -/
theorem GeneratePSP_eq (env : Env) (css : List ContainerSecuritySpec)
    (pss : List PodSecuritySpec) (ns ver : String)
    (h : ¬ (css.length = 0 ∧ pss.length = 0)) :
    GeneratePSP env css pss ns ver = some
      { APIVersion := "policy/v1beta1"
        Kind := "PodSecurityPolicy"
        Name := "pod-security-policy" ++ "-" ++ (if ns = "" then "all" else ns) ++ "-" ++ env.now
        Spec :=
          { Privileged := css.any (fun sc => sc.Privileged)
            DefaultAddCapabilities :=
              ((css.foldl (fun m sc => sc.AddedCap.foldl increment m) []).filter
                (fun kv => kv.2 = css.length)).map Prod.fst
            RequiredDropCapabilities :=
              ((css.foldl (fun m sc => sc.DroppedCap.foldl increment m) []).filter
                (fun kv => kv.2 = css.length)).map Prod.fst
            AllowedCapabilities :=
              (deleteDefaultCaps (ArrayToMap env.DefaultCaps)
                (css.foldl
                  (fun m sc => sc.Capabilities.foldl (fun m cap => m.set cap true) m) [])).keys
            Volumes :=
              MapToArray
                (pss.foldl (fun m sc => sc.VolumeTypes.foldl (fun m t => m.set t true) m) [])
            HostNetwork := pss.any (fun sc => sc.HostNetwork)
            HostPID := pss.any (fun sc => sc.HostPID)
            HostIPC := pss.any (fun sc => sc.HostIPC)
            SELinux := { Rule := SELinuxStrategyRunAsAny }
            RunAsUser :=
              { Rule :=
                  if css.countP (fun sc => sc.RunAsUser.isSome) = css.length then
                    RunAsUserStrategyMustRunAs
                  else if css.countP (fun sc => sc.RunAsNonRoot = some true) = css.length then
                    RunAsUserStrategyMustRunAsNonRoot
                  else RunAsUserStrategyRunAsAny
                Ranges := [] }
            RunAsGroup := none
            SupplementalGroups := { Rule := SupplementalGroupsStrategyRunAsAny, Ranges := [] }
            FSGroup := { Rule := FSGroupStrategyRunAsAny, Ranges := [] }
            ReadOnlyRootFilesystem := css.any (fun sc => sc.ReadOnlyRootFS)
            AllowPrivilegeEscalation :=
              if css.countP (fun sc => sc.AllowPrivilegeEscalation = some false) = css.length
              then some false
              else none
            AllowedHostPaths :=
              (pss.foldl (fun m sc => sc.MountHostPaths.foldl mergeHostPath m) []).map
                (fun entry =>
                  { PathPrefix := entry.1
                    ReadOnly := entry.2 || env.CompareVersion ver env.Version1_11 }) } } := by
  unfold GeneratePSP
  rw [if_neg h]
  simp only [collect, foldl_cssStep, foldl_pssStep, setAllowPrivilegeEscalation_eq,
    setRunAsUserStrategy_eq, setAllowedHostPaths_eq, setVolumes_eq, setAllowedCapabilities_eq,
    setDefaultAddCapabilities_eq, setRequiredDropCapabilities_eq, setDefaults,
    Bool.false_or, Nat.zero_add, List.nil_append]
  by_cases h1 : css.countP (fun sc => sc.RunAsUser.isSome) = css.length <;>
    by_cases h2 : css.countP (fun sc => sc.RunAsNonRoot = some true) = css.length <;>
    simp [h1, h2, RunAsUserStrategyMustRunAs, RunAsUserStrategyMustRunAsNonRoot,
      RunAsUserStrategyRunAsAny]

/-! ## The RunAsUser strategy, privilege escalation and the empty input -/

theorem countP_eq_length_iff {α : Type} (p : α → Bool) (l : List α) :
    l.countP p = l.length ↔ ∀ a ∈ l, p a = true := by
  induction l with
  | nil => simp
  | cons a rest ih =>
    have hle := List.countP_le_length p (l := rest)
    by_cases h : p a = true
    · simp [List.countP_cons, h, ih]
    · simp only [List.countP_cons, h, List.length_cons, List.mem_cons, forall_eq_or_imp]
      constructor
      · intro e
        simp at e
        omega
      · intro e
        exact absurd e.1 (by simp)

theorem nonempty_inputs {css : List ContainerSecuritySpec} {pss : List PodSecuritySpec}
    (h : css ≠ [] ∨ pss ≠ []) : ¬ (css.length = 0 ∧ pss.length = 0) := by
  rintro ⟨h1, h2⟩
  rcases h with h | h
  · exact h (List.length_eq_zero.1 h1)
  · exact h (List.length_eq_zero.1 h2)

/-- C1: whenever `GeneratePSP` returns a policy (one of its lists is not empty), the
RunAsUser rule is one of MustRunAs, MustRunAsNonRoot and RunAsAny; it is MustRunAs exactly
when every container spec has a RunAsUser, MustRunAsNonRoot exactly when every container
spec has RunAsNonRoot set to true and not every one has a RunAsUser, and RunAsAny exactly
in the remaining case. -/
theorem runAsUser_rule_selection (env : Env) (css : List ContainerSecuritySpec)
    (pss : List PodSecuritySpec) (ns ver : String) (h : css ≠ [] ∨ pss ≠ []) :
    ∃ psp, GeneratePSP env css pss ns ver = some psp ∧
      (psp.Spec.RunAsUser.Rule = RunAsUserStrategyMustRunAs ∨
        psp.Spec.RunAsUser.Rule = RunAsUserStrategyMustRunAsNonRoot ∨
        psp.Spec.RunAsUser.Rule = RunAsUserStrategyRunAsAny) ∧
      (psp.Spec.RunAsUser.Rule = RunAsUserStrategyMustRunAs ↔
        ∀ sc ∈ css, sc.RunAsUser ≠ none) ∧
      (psp.Spec.RunAsUser.Rule = RunAsUserStrategyMustRunAsNonRoot ↔
        (∀ sc ∈ css, sc.RunAsNonRoot = some true) ∧ ¬ ∀ sc ∈ css, sc.RunAsUser ≠ none) ∧
      (psp.Spec.RunAsUser.Rule = RunAsUserStrategyRunAsAny ↔
        (¬ ∀ sc ∈ css, sc.RunAsNonRoot = some true) ∧ ¬ ∀ sc ∈ css, sc.RunAsUser ≠ none) := by
  refine ⟨_, GeneratePSP_eq env css pss ns ver (nonempty_inputs h), ?_⟩
  have e1 : css.countP (fun sc => sc.RunAsUser.isSome) = css.length ↔
      ∀ sc ∈ css, sc.RunAsUser ≠ none := by
    rw [countP_eq_length_iff]
    simp [Option.isSome_iff_ne_none]
  have e2 : css.countP (fun sc => sc.RunAsNonRoot = some true) = css.length ↔
      ∀ sc ∈ css, sc.RunAsNonRoot = some true := by
    rw [countP_eq_length_iff]
    simp
  have d1 : RunAsUserStrategyMustRunAsNonRoot ≠ RunAsUserStrategyMustRunAs := by decide
  have d2 : RunAsUserStrategyRunAsAny ≠ RunAsUserStrategyMustRunAs := by decide
  have d3 : RunAsUserStrategyRunAsAny ≠ RunAsUserStrategyMustRunAsNonRoot := by decide
  simp only []
  rw [← e1, ← e2]
  by_cases h1 : css.countP (fun sc => sc.RunAsUser.isSome) = css.length
  · simp [h1, d1.symm, d2.symm]
  · by_cases h2 : css.countP (fun sc => sc.RunAsNonRoot = some true) = css.length
    · simp [h1, h2, d1, d3.symm]
    · simp [h1, h2, d2, d3]

/-- C1, at three container specs of which only the first two declare a uid while all
three declare runAsNonRoot: the rule is MustRunAsNonRoot. -/
theorem runAsUser_rule_selection_witness :
    (exampleNonRoot ≠ [] ∨ ([] : List PodSecuritySpec) ≠ []) ∧
    ∃ psp, GeneratePSP (exampleEnv false) exampleNonRoot [] "" "" = some psp ∧
      (psp.Spec.RunAsUser.Rule = RunAsUserStrategyMustRunAs ∨
        psp.Spec.RunAsUser.Rule = RunAsUserStrategyMustRunAsNonRoot ∨
        psp.Spec.RunAsUser.Rule = RunAsUserStrategyRunAsAny) ∧
      (psp.Spec.RunAsUser.Rule = RunAsUserStrategyMustRunAs ↔
        ∀ sc ∈ exampleNonRoot, sc.RunAsUser ≠ none) ∧
      (psp.Spec.RunAsUser.Rule = RunAsUserStrategyMustRunAsNonRoot ↔
        (∀ sc ∈ exampleNonRoot, sc.RunAsNonRoot = some true) ∧
          ¬ ∀ sc ∈ exampleNonRoot, sc.RunAsUser ≠ none) ∧
      (psp.Spec.RunAsUser.Rule = RunAsUserStrategyRunAsAny ↔
        (¬ ∀ sc ∈ exampleNonRoot, sc.RunAsNonRoot = some true) ∧
          ¬ ∀ sc ∈ exampleNonRoot, sc.RunAsUser ≠ none) :=
  ⟨Or.inl (by decide),
    runAsUser_rule_selection (exampleEnv false) exampleNonRoot [] "" "" (Or.inl (by decide))⟩

/-! ## Capabilities -/

theorem foldl_append_filter {α : Type} (p : α → Bool) (l : List α) (init : List α) :
    l.foldl (fun acc x => if p x then acc ++ [x] else acc) init = init ++ l.filter p := by
  induction l generalizing init with
  | nil => simp
  | cons a rest ih =>
    by_cases h : p a = true <;> simp [ih, h]

theorem mem_getEffectiveCapablities (defaultCaps add drop : List String) (c : String) :
    c ∈ getEffectiveCapablities defaultCaps add drop ↔
      (c ∈ defaultCaps ∧ c ∉ drop) ∨ c ∈ add := by
  unfold getEffectiveCapablities
  simp only []
  rw [foldl_append_filter (fun cap => ((ArrayToMap drop).get? cap).isNone)]
  simp only [List.nil_append, List.mem_append, List.mem_filter, Option.isNone_iff_eq_none,
    GoMap.get?_eq_none_iff, mem_keys_ArrayToMap]

theorem mem_keys_effectiveCap (css : List ContainerSecuritySpec) (m : GoMap String Bool)
    (c : String) :
    c ∈ GoMap.keys
        (css.foldl (fun m sc => sc.Capabilities.foldl (fun m cap => m.set cap true) m) m) ↔
      (∃ sc ∈ css, c ∈ sc.Capabilities) ∨ c ∈ m.keys := by
  induction css generalizing m with
  | nil => simp
  | cons sc rest ih =>
    simp only [List.foldl_cons, ih, mem_keys_foldl_set, List.mem_cons, exists_eq_or_imp]
    constructor
    · rintro (e | e | e)
      · exact Or.inl (Or.inr e)
      · exact Or.inl (Or.inl e)
      · exact Or.inr e
    · rintro ((e | e) | e)
      · exact Or.inr (Or.inl e)
      · exact Or.inl e
      · exact Or.inr (Or.inr e)

theorem nodup_keys_effectiveCap (css : List ContainerSecuritySpec) (m : GoMap String Bool)
    (h : m.keys.Nodup) :
    (GoMap.keys
      (css.foldl (fun m sc => sc.Capabilities.foldl (fun m cap => m.set cap true) m)
        m)).Nodup := by
  induction css generalizing m with
  | nil => simpa using h
  | cons sc rest ih => exact ih _ (nodup_keys_foldl_set _ _ h)

theorem deleteLoop_keys (l : List String) (m : GoMap String Bool) (h : m.keys.Nodup) :
    (GoMap.keys
        (l.foldl (fun m cap => if (m.get? cap).isSome then m.delete cap else m) m)).Nodup ∧
      ∀ c, c ∈ GoMap.keys
          (l.foldl (fun m cap => if (m.get? cap).isSome then m.delete cap else m) m) ↔
        c ∈ m.keys ∧ c ∉ l := by
  induction l generalizing m with
  | nil => simpa using h
  | cons a rest ih =>
    simp only [List.foldl_cons]
    by_cases ha : (m.get? a).isSome = true
    · rw [if_pos ha]
      obtain ⟨h1, h2⟩ := ih (m.delete a) (GoMap.nodup_keys_delete m h a)
      refine ⟨h1, fun c => ?_⟩
      rw [h2, GoMap.mem_keys_delete m h, List.mem_cons]
      tauto
    · rw [if_neg ha]
      obtain ⟨h1, h2⟩ := ih m h
      refine ⟨h1, fun c => ?_⟩
      rw [h2, List.mem_cons]
      have hna : a ∉ m.keys := fun e => ha ((GoMap.get?_isSome_iff m a).2 e)
      constructor
      · rintro ⟨e1, e2⟩
        exact ⟨e1, fun e => e.elim (fun e' => hna (e' ▸ e1)) e2⟩
      · rintro ⟨e1, e2⟩
        exact ⟨e1, fun e => e2 (Or.inr e)⟩

/-- The allowed capabilities are the effective capabilities of the container specs that
are not in the default table. -/
theorem mem_allowedCapabilities (defaultCaps : List String)
    (css : List ContainerSecuritySpec) (c : String) :
    c ∈ GoMap.keys
        (deleteDefaultCaps (ArrayToMap defaultCaps)
          (css.foldl (fun m sc => sc.Capabilities.foldl (fun m cap => m.set cap true) m)
            [])) ↔
      (∃ sc ∈ css, c ∈ sc.Capabilities) ∧ c ∉ defaultCaps := by
  unfold deleteDefaultCaps
  rw [(deleteLoop_keys _ _ (nodup_keys_effectiveCap css [] (by simp [GoMap.keys]))).2,
    mem_keys_effectiveCap, mem_keys_ArrayToMap]
  simp [GoMap.keys]

/-- C2, as amended: over a capability table without NET_ADMIN (with CHOWN or not), and
whatever the pod specs, the policy of the container specs A, B and C is privileged, allows
NET_ADMIN, and has neither a required-drop nor a default-add capability: CHOWN is dropped
by A and B only, not by C. -/
theorem example_ABC_policy (env : Env) (pss : List PodSecuritySpec) (ns ver : String)
    (h2 : "NET_ADMIN" ∉ env.DefaultCaps) :
    ∃ psp, GeneratePSP env (exampleABC env.DefaultCaps) pss ns ver = some psp ∧
      psp.Spec.Privileged = true ∧
      "NET_ADMIN" ∈ psp.Spec.AllowedCapabilities ∧
      "CHOWN" ∉ psp.Spec.RequiredDropCapabilities ∧
      psp.Spec.RequiredDropCapabilities = [] ∧
      psp.Spec.DefaultAddCapabilities = [] := by
  refine ⟨_, GeneratePSP_eq env _ pss ns ver (nonempty_inputs (Or.inl (by simp [exampleABC]))),
    ?_, ?_, ?_, ?_, ?_⟩
  · rfl
  · simp only []
    rw [mem_allowedCapabilities]
    refine ⟨⟨exampleA env.DefaultCaps, by simp [exampleABC], ?_⟩, h2⟩
    simp [exampleA, mem_getEffectiveCapablities]
  · show "CHOWN" ∉ ([] : List String)
    exact List.not_mem_nil _
  · rfl
  · rfl

/-- Witness for C2 as amended, over the table `exampleCaps`. -/
theorem example_ABC_policy_witness :
    ("CHOWN" ∈ (exampleEnv false).DefaultCaps ∧ "NET_ADMIN" ∉ (exampleEnv false).DefaultCaps) ∧
    ∃ psp, GeneratePSP (exampleEnv false) (exampleABC (exampleEnv false).DefaultCaps)
        [{}, {}, {}] "" "" = some psp ∧
      psp.Spec.Privileged = true ∧
      "NET_ADMIN" ∈ psp.Spec.AllowedCapabilities ∧
      "CHOWN" ∉ psp.Spec.RequiredDropCapabilities ∧
      psp.Spec.RequiredDropCapabilities = [] ∧
      psp.Spec.DefaultAddCapabilities = [] :=
  ⟨⟨by decide, by decide⟩,
    example_ABC_policy (exampleEnv false) [{}, {}, {}] "" "" (by decide)⟩

/-- C2 fails as stated: over the table `exampleCaps`, which has CHOWN and not NET_ADMIN,
with three pod specs without host namespaces and volumes, the policy of A, B and C does
not require CHOWN to be dropped. -/
theorem example_ABC_chown_not_required :
    "CHOWN" ∈ exampleCaps ∧ "NET_ADMIN" ∉ exampleCaps ∧
    ∃ psp, GeneratePSP (exampleEnv false) (exampleABC exampleCaps) [{}, {}, {}] "" "" =
        some psp ∧
      ¬ (psp.Spec.Privileged = true ∧ "NET_ADMIN" ∈ psp.Spec.AllowedCapabilities ∧
          "CHOWN" ∈ psp.Spec.RequiredDropCapabilities ∧
          psp.Spec.DefaultAddCapabilities = []) := by
  refine ⟨by decide, by decide, _, rfl, ?_⟩
  decide

/-- C3: whenever `GeneratePSP` returns a policy, its AllowPrivilegeEscalation is present
and false if every container spec has AllowPrivilegeEscalation present and false, it is
absent if some container spec has it absent or true, and it is never true. -/
theorem allowPrivilegeEscalation_rule (env : Env) (css : List ContainerSecuritySpec)
    (pss : List PodSecuritySpec) (ns ver : String) (h : css ≠ [] ∨ pss ≠ []) :
    ∃ psp, GeneratePSP env css pss ns ver = some psp ∧
      ((∀ sc ∈ css, sc.AllowPrivilegeEscalation = some false) →
        psp.Spec.AllowPrivilegeEscalation = some false) ∧
      ((∃ sc ∈ css, sc.AllowPrivilegeEscalation = none ∨
          sc.AllowPrivilegeEscalation = some true) →
        psp.Spec.AllowPrivilegeEscalation = none) ∧
      psp.Spec.AllowPrivilegeEscalation ≠ some true := by
  refine ⟨_, GeneratePSP_eq env css pss ns ver (nonempty_inputs h), ?_⟩
  have e : css.countP (fun sc => sc.AllowPrivilegeEscalation = some false) = css.length ↔
      ∀ sc ∈ css, sc.AllowPrivilegeEscalation = some false := by
    rw [countP_eq_length_iff]
    simp
  simp only []
  rw [← e]
  refine ⟨fun h1 => by rw [if_pos h1], ?_, ?_⟩
  · rintro ⟨sc, hsc, hv⟩
    have hn : ¬ css.countP (fun sc => sc.AllowPrivilegeEscalation = some false) =
        css.length := by
      rw [e]
      intro hall
      have := hall sc hsc
      rcases hv with hv | hv <;> rw [hv] at this <;> simp at this
    rw [if_neg hn]
  · split_ifs <;> simp

/-- Witness for C3: two container specs that both disallow privilege escalation. -/
theorem allowPrivilegeEscalation_rule_witness :
    (exampleNoEscalation ≠ [] ∨ ([] : List PodSecuritySpec) ≠ []) ∧
    ∃ psp, GeneratePSP (exampleEnv false) exampleNoEscalation [] "" "" = some psp ∧
      ((∀ sc ∈ exampleNoEscalation, sc.AllowPrivilegeEscalation = some false) →
        psp.Spec.AllowPrivilegeEscalation = some false) ∧
      ((∃ sc ∈ exampleNoEscalation, sc.AllowPrivilegeEscalation = none ∨
          sc.AllowPrivilegeEscalation = some true) →
        psp.Spec.AllowPrivilegeEscalation = none) ∧
      psp.Spec.AllowPrivilegeEscalation ≠ some true :=
  ⟨Or.inl (by decide),
    allowPrivilegeEscalation_rule (exampleEnv false) exampleNoEscalation [] "" ""
      (Or.inl (by decide))⟩

/-- C4: `GeneratePSP` returns nil exactly when both lists are empty; for every other input
it returns a policy with APIVersion "policy/v1beta1" and Kind "PodSecurityPolicy". -/
theorem nil_iff_both_empty (env : Env) (css : List ContainerSecuritySpec)
    (pss : List PodSecuritySpec) (ns ver : String) :
    (GeneratePSP env css pss ns ver = none ↔ css = [] ∧ pss = []) ∧
    ((css = [] ∧ pss = []) ∨
      ∃ psp, GeneratePSP env css pss ns ver = some psp ∧
        psp.APIVersion = "policy/v1beta1" ∧ psp.Kind = "PodSecurityPolicy") := by
  by_cases h : css.length = 0 ∧ pss.length = 0
  · have h' : css = [] ∧ pss = [] := ⟨List.length_eq_zero.1 h.1, List.length_eq_zero.1 h.2⟩
    refine ⟨?_, Or.inl h'⟩
    simp [GeneratePSP, h']
  · have h' : ¬ (css = [] ∧ pss = []) := fun e => h (by simp [e.1, e.2])
    rw [GeneratePSP_eq env css pss ns ver h]
    exact ⟨by simp [h'], Or.inr ⟨_, rfl, rfl, rfl⟩⟩

/-! ## Host paths -/

theorem get?_mergeHostPath (m : GoMap String Bool) (e : String × Bool) (p : String) :
    (mergeHostPath m e).get? p =
      if e.1 = p then some (e.2 && (m.get? e.1).getD true) else m.get? p := by
  unfold mergeHostPath
  cases h : m.get? e.1 <;> simp [GoMap.get?_set]

theorem nodup_keys_mergeHostPath (m : GoMap String Bool) (e : String × Bool)
    (h : m.keys.Nodup) : (mergeHostPath m e).keys.Nodup := by
  unfold mergeHostPath
  cases m.get? e.1 <;> exact GoMap.nodup_keys_set _ _ _ h

theorem foldl_mergeHostPath (l : GoMap String Bool) (m : GoMap String Bool)
    (h : m.keys.Nodup) (p : String) :
    (l.foldl mergeHostPath m).keys.Nodup ∧
      (l.foldl mergeHostPath m).get? p =
        if (m.get? p).isSome ∨ p ∈ l.keys then
          some ((m.get? p).getD true && entriesReadOnly l p)
        else none := by
  induction l generalizing m with
  | nil =>
    refine ⟨by simpa using h, ?_⟩
    cases hm : m.get? p <;> simp [GoMap.keys, entriesReadOnly, hm]
  | cons e rest ih =>
    obtain ⟨h1, h2⟩ := ih (mergeHostPath m e) (nodup_keys_mergeHostPath m e h)
    refine ⟨h1, ?_⟩
    rw [List.foldl_cons, h2, get?_mergeHostPath]
    by_cases hp : e.1 = p
    · subst hp
      cases hm : m.get? e.1 <;> cases he : e.2 <;>
        simp [GoMap.keys, entriesReadOnly, hm, he]
    · have hp' : ¬ p = e.1 := fun e' => hp e'.symm
      simp [GoMap.keys, entriesReadOnly, hp, hp']

theorem foldl_hostPaths (pss : List PodSecuritySpec) (m : GoMap String Bool)
    (h : m.keys.Nodup) (p : String) :
    (GoMap.keys (pss.foldl (fun m sc => sc.MountHostPaths.foldl mergeHostPath m) m)).Nodup ∧
      GoMap.get? (pss.foldl (fun m sc => sc.MountHostPaths.foldl mergeHostPath m) m) p =
        if (m.get? p).isSome ∨ ∃ ps ∈ pss, p ∈ ps.MountHostPaths.keys then
          some ((m.get? p).getD true && mergedReadOnly pss p)
        else none := by
  induction pss generalizing m with
  | nil =>
    refine ⟨by simpa using h, ?_⟩
    cases hm : m.get? p <;> simp [mergedReadOnly, hm]
  | cons ps rest ih =>
    obtain ⟨k1, k2⟩ := foldl_mergeHostPath ps.MountHostPaths m h p
    obtain ⟨h1, h2⟩ := ih (ps.MountHostPaths.foldl mergeHostPath m) k1
    refine ⟨h1, ?_⟩
    rw [List.foldl_cons, h2, k2]
    by_cases hm : (m.get? p).isSome = true
    · simp [hm, mergedReadOnly, Bool.and_assoc]
    · by_cases hk : p ∈ ps.MountHostPaths.keys
      · have hn : m.get? p = none := by simpa using hm
        simp [hk, hn, mergedReadOnly]
      · have hn : m.get? p = none := by simpa using hm
        have ht : entriesReadOnly ps.MountHostPaths p = true := by
          unfold entriesReadOnly
          rw [List.all_eq_true]
          intro e he
          have : e.1 ≠ p := fun e' => hk (List.mem_map.2 ⟨e, he, e'⟩)
          simp [this]
        simp [hk, hn, mergedReadOnly, ht]

theorem filter_key_eq (m : GoMap String Bool) (h : m.keys.Nodup) (p : String) :
    m.filter (fun e => e.1 = p) =
      match m.get? p with
      | some v => [(p, v)]
      | none => [] := by
  induction m with
  | nil => simp [GoMap.get?]
  | cons a rest ih =>
    obtain ⟨k0, v0⟩ := a
    have h1 : k0 ∉ GoMap.keys rest ∧ (GoMap.keys rest).Nodup := by simpa [GoMap.keys] using h
    by_cases hk : k0 = p
    · subst hk
      have hn : GoMap.get? rest k0 = none := (GoMap.get?_eq_none_iff rest k0).2 h1.1
      have := ih h1.2
      rw [hn] at this
      simp [GoMap.get?, List.filter_cons, this]
    · simp [GoMap.get?, List.filter_cons, hk, ih h1.2]

/-- C5: for a non-empty list of pod specs, a path is among the allowed host paths of the
policy exactly when some pod spec reports it; it is then listed once, and its read-only
flag is the override (the comparison of the server version with 1.11) or the conjunction
of the flags the pod specs record for it.  In particular "/data", read-only in pod spec A
and writable in pod spec B, is read-only in the policy exactly when the override is on. -/
theorem allowedHostPaths_merge (env : Env) (css : List ContainerSecuritySpec)
    (pss : List PodSecuritySpec) (ns ver : String) (h : pss ≠ []) :
    (∃ psp, GeneratePSP env css pss ns ver = some psp ∧
      ∀ p : String,
        ((∃ a ∈ psp.Spec.AllowedHostPaths, a.PathPrefix = p) ↔
          ∃ ps ∈ pss, p ∈ ps.MountHostPaths.keys) ∧
        ((∃ ps ∈ pss, p ∈ ps.MountHostPaths.keys) →
          psp.Spec.AllowedHostPaths.filter (fun a => a.PathPrefix = p) =
            [{ PathPrefix := p
               ReadOnly := env.CompareVersion ver env.Version1_11 || mergedReadOnly pss p }])) ∧
    (∀ E : Bool, ∃ psp,
      GeneratePSP (exampleEnv E) css [examplePodA, examplePodB] ns ver = some psp ∧
        psp.Spec.AllowedHostPaths = [{ PathPrefix := "/data", ReadOnly := E }]) := by
  constructor
  · refine ⟨_, GeneratePSP_eq env css pss ns ver (nonempty_inputs (Or.inr h)), fun p => ?_⟩
    obtain ⟨hnd, hget⟩ := foldl_hostPaths pss [] (by simp [GoMap.keys]) p
    simp only [GoMap.get?, Option.isSome_none, Bool.false_eq_true, false_or,
      Option.getD_none, Bool.true_and] at hget
    have hfil := filter_key_eq _ hnd p
    simp only []
    constructor
    · constructor
      · rintro ⟨a, ha, hap⟩
        by_contra hno
        rw [if_neg hno] at hget
        obtain ⟨e, he, hea⟩ := List.mem_map.1 ha
        have hk : p ∈ GoMap.keys
            (pss.foldl (fun m sc => sc.MountHostPaths.foldl mergeHostPath m) []) := by
          refine List.mem_map.2 ⟨e, he, ?_⟩
          rw [← hap, ← hea]
        exact ((GoMap.get?_eq_none_iff _ p).1 hget) hk
      · intro hex
        rw [if_pos hex] at hget
        rw [hget] at hfil
        have hm : (p, mergedReadOnly pss p) ∈
            (pss.foldl (fun m sc => sc.MountHostPaths.foldl mergeHostPath m) []).filter
              (fun e => e.1 = p) := by
          rw [hfil]
          exact List.mem_singleton.2 rfl
        exact ⟨_, List.mem_map.2 ⟨_, (List.mem_filter.1 hm).1, rfl⟩, rfl⟩
    · intro hex
      rw [if_pos hex] at hget
      rw [hget] at hfil
      rw [List.filter_map]
      have hc : ((fun a : AllowedHostPath => decide (a.PathPrefix = p)) ∘
          fun entry : String × Bool =>
            ({ PathPrefix := entry.1
               ReadOnly := entry.2 || env.CompareVersion ver env.Version1_11 } :
              AllowedHostPath)) = fun e => decide (e.1 = p) := rfl
      rw [hc, hfil]
      simp [Bool.or_comm]
  · intro E
    refine ⟨_, GeneratePSP_eq (exampleEnv E) css _ ns ver
      (nonempty_inputs (Or.inr (by simp))), ?_⟩
    cases E <;> rfl

/-- Witness for C5: the pod specs A and B, with the override off. -/
theorem allowedHostPaths_merge_witness :
    [examplePodA, examplePodB] ≠ [] ∧
    ∃ psp, GeneratePSP (exampleEnv false) [] [examplePodA, examplePodB] "" "" = some psp ∧
      psp.Spec.AllowedHostPaths.filter (fun a => a.PathPrefix = "/data") =
        [{ PathPrefix := "/data", ReadOnly := false }] := by
  refine ⟨by decide, ?_⟩
  obtain ⟨psp, h1, h2⟩ :=
    (allowedHostPaths_merge (exampleEnv false) [] [examplePodA, examplePodB] "" ""
      (by decide)).1
  exact ⟨psp, h1, (h2 "/data").2 ⟨examplePodA, by decide, by decide⟩⟩

/-! ## Effective capabilities and volume types -/

/-- C6: a capability is effective exactly when it is in the default table and not
dropped, or added; so the effective set does not change when the add list or the drop list
is permuted, and a capability that is both dropped and added is effective. -/
theorem effectiveCapabilities_membership (defaultCaps add drop : List String) :
    (∀ c, c ∈ getEffectiveCapablities defaultCaps add drop ↔
      (c ∈ defaultCaps ∧ c ∉ drop) ∨ c ∈ add) ∧
    (∀ add2 drop2 : List String, add2.Perm add → drop2.Perm drop →
      ∀ c, c ∈ getEffectiveCapablities defaultCaps add2 drop2 ↔
        c ∈ getEffectiveCapablities defaultCaps add drop) ∧
    (∀ c, c ∈ add → c ∈ drop → c ∈ getEffectiveCapablities defaultCaps add drop) := by
  refine ⟨fun c => mem_getEffectiveCapablities defaultCaps add drop c, ?_, ?_⟩
  · intro add2 drop2 ha hd c
    rw [mem_getEffectiveCapablities, mem_getEffectiveCapablities, ha.mem_iff, hd.mem_iff]
  · intro c hc _
    rw [mem_getEffectiveCapablities]
    exact Or.inr hc

theorem mem_keys_volumeFold (vs : List Volume) (m : GoMap String Bool) (t : String) :
    t ∈ GoMap.keys
        (vs.foldl
          (fun m v => if getVolumeType v ≠ "" then m.set (getVolumeType v) true else m) m) ↔
      (∃ v ∈ vs, getVolumeType v = t ∧ t ≠ "") ∨ t ∈ m.keys := by
  induction vs generalizing m with
  | nil => simp
  | cons v rest ih =>
    rw [List.foldl_cons, ih]
    by_cases hv : getVolumeType v = ""
    · simp only [hv, ne_eq, not_true_eq_false, if_false, List.mem_cons, exists_eq_or_imp]
      constructor
      · rintro (e | e)
        · exact Or.inl (Or.inr e)
        · exact Or.inr e
      · rintro ((e | e) | e)
        · exact absurd e.1.symm e.2
        · exact Or.inl e
        · exact Or.inr e
    · simp only [ne_eq, hv, not_false_eq_true, if_true, GoMap.mem_keys_set, List.mem_cons,
        exists_eq_or_imp]
      constructor
      · rintro (e | e | e)
        · exact Or.inl (Or.inr e)
        · exact Or.inl (Or.inl ⟨e.symm, fun e2 => hv (e ▸ e2)⟩)
        · exact Or.inr e
      · rintro ((e | e) | e)
        · exact Or.inr (Or.inl e.1.symm)
        · exact Or.inl e
        · exact Or.inr (Or.inr e)

/-- The volume types of a pod spec: the kinds of its volumes, and "secret" when there is
no service account or the token is mounted. -/
theorem mem_getVolumeTypes (spec : PodSpec) (sa : Option ServiceAccount) (t : String) :
    t ∈ getVolumeTypes spec sa ↔
      (∃ v ∈ spec.Volumes, getVolumeType v = t ∧ t ≠ "") ∨
        (t = "secret" ∧ ∀ a, sa = some a → mountServiceAccountToken spec a = true) := by
  unfold getVolumeTypes MapToArray
  cases sa with
  | none =>
    simp only [if_true, GoMap.mem_keys_set, mem_keys_volumeFold, volumeTypeSecret]
    simp only [GoMap.keys, List.map_nil, List.not_mem_nil, or_false]
    constructor
    · rintro (e | e)
      · exact Or.inr ⟨e, fun a ha => by cases ha⟩
      · exact Or.inl e
    · rintro (e | e)
      · exact Or.inr e
      · exact Or.inl e.1
  | some a =>
    by_cases hm : mountServiceAccountToken spec a = true
    · simp only [hm, if_true, GoMap.mem_keys_set, mem_keys_volumeFold, volumeTypeSecret]
      simp only [GoMap.keys, List.map_nil, List.not_mem_nil, or_false]
      constructor
      · rintro (e | e)
        · refine Or.inr ⟨e, fun b hb => ?_⟩
          cases hb
          exact hm
        · exact Or.inl e
      · rintro (e | e)
        · exact Or.inr e
        · exact Or.inl e.1
    · have hf : mountServiceAccountToken spec a = false := by simpa using hm
      simp only [hf, Bool.false_eq_true, if_false, mem_keys_volumeFold]
      simp only [GoMap.keys, List.map_nil, List.not_mem_nil, or_false]
      constructor
      · intro e
        exact Or.inl e
      · rintro (e | e)
        · exact e
        · exact absurd (e.2 a rfl) hm

/-- C7, as amended: for a pod spec whose automount flag is unset, the volume types of the
pod security spec contain "secret" exactly when the service account is absent, or present
with its own flag unset or true, or the pod declares a volume of kind secret; a service
account that opts out removes the forced "secret". -/
theorem secret_unless_serviceAccount_opts_out (env : Env) (metadata : Metadata)
    (ns : String) (spec : PodSpec) (sa : Option ServiceAccount)
    (h : spec.AutomountServiceAccountToken = none) :
    "secret" ∈ (GetSecuritySpecFromPodSpec env metadata ns spec sa).2.VolumeTypes ↔
      (∀ a, sa = some a → a.AutomountServiceAccountToken ≠ some false) ∨
        ∃ v ∈ spec.Volumes, getVolumeType v = "secret" := by
  show "secret" ∈ getVolumeTypes spec sa ↔ _
  rw [mem_getVolumeTypes]
  have hm : ∀ a : ServiceAccount, mountServiceAccountToken spec a = true ↔
      a.AutomountServiceAccountToken ≠ some false := by
    intro a
    unfold mountServiceAccountToken
    rw [h]
    rcases hv : a.AutomountServiceAccountToken with _ | b
    · simp
    · cases b <;> simp
  constructor
  · rintro (⟨v, hv, e, _⟩ | ⟨_, e⟩)
    · exact Or.inr ⟨v, hv, e⟩
    · exact Or.inl fun a ha => (hm a).1 (e a ha)
  · rintro (e | ⟨v, hv, e⟩)
    · exact Or.inr ⟨rfl, fun a ha => (hm a).2 (e a ha)⟩
    · exact Or.inl ⟨v, hv, e, by decide⟩

/-- Witness for C7 as amended: a pod without volumes and a service account that leaves its
flag unset. -/
theorem secret_unless_serviceAccount_opts_out_witness :
    (examplePodPlain.AutomountServiceAccountToken = none) ∧
    "secret" ∈ (GetSecuritySpecFromPodSpec (exampleEnv false) {} "default" examplePodPlain
      (some {})).2.VolumeTypes :=
  ⟨rfl,
    (secret_unless_serviceAccount_opts_out (exampleEnv false) {} "default" examplePodPlain
      (some {}) rfl).2 (Or.inl (by simp))⟩

/-- C7 fails as stated: a pod whose automount flag is unset, with a service account whose
flag is false, gets no "secret" volume type. -/
theorem secret_absent_when_serviceAccount_opts_out :
    examplePodPlain.AutomountServiceAccountToken = none ∧
    "secret" ∉ (GetSecuritySpecFromPodSpec (exampleEnv false) {} "default" examplePodPlain
      (some { AutomountServiceAccountToken := some false })).2.VolumeTypes := by
  decide

/-- With a service account supplied and no volume of kind secret, `getVolumeTypes` follows
the resolved automount decision. -/
theorem secret_iff_resolved_of_serviceAccount (spec : PodSpec) (a : ServiceAccount)
    (h : ∀ v ∈ spec.Volumes, getVolumeType v ≠ "secret") :
    "secret" ∈ getVolumeTypes spec (some a) ↔ resolvedAutomount spec (some a) = true := by
  rw [mem_getVolumeTypes]
  have e : resolvedAutomount spec (some a) = mountServiceAccountToken spec a := by
    unfold resolvedAutomount mountServiceAccountToken
    cases spec.AutomountServiceAccountToken <;> rfl
  rw [e]
  constructor
  · rintro (⟨v, hv, e1, _⟩ | ⟨_, e1⟩)
    · exact absurd e1 (h v hv)
    · exact e1 a rfl
  · intro e1
    refine Or.inr ⟨rfl, fun b hb => ?_⟩
    cases hb
    exact e1

/-- C8, as amended: for a pod spec with no volume of kind secret, "secret" is among the
volume types exactly when no service account is supplied, where the token is always taken
as mounted whatever the pod-level flag, or the resolved automount decision is "mounted":
the pod-level flag when set, otherwise the flag of the service account when set, otherwise
mounted. -/
theorem secret_iff_no_serviceAccount_or_resolved (spec : PodSpec)
    (sa : Option ServiceAccount) (h : ∀ v ∈ spec.Volumes, getVolumeType v ≠ "secret") :
    "secret" ∈ getVolumeTypes spec sa ↔ sa = none ∨ resolvedAutomount spec sa = true := by
  cases sa with
  | none =>
    rw [mem_getVolumeTypes]
    constructor
    · intro _
      exact Or.inl rfl
    · intro _
      exact Or.inr ⟨rfl, fun a ha => by cases ha⟩
  | some a =>
    rw [secret_iff_resolved_of_serviceAccount spec a h]
    constructor
    · intro e
      exact Or.inr e
    · rintro (e | e)
      · cases e
      · exact e

/-- Witness for C8 as amended: a pod that opts out of the token mount, with an emptyDir
volume only, once without a service account and once with one. -/
theorem secret_iff_no_serviceAccount_or_resolved_witness :
    (∀ v ∈ examplePodOptOut.Volumes, getVolumeType v ≠ "secret") ∧
    "secret" ∈ getVolumeTypes examplePodOptOut none ∧
    "secret" ∉ getVolumeTypes examplePodOptOut (some {}) :=
  ⟨by decide,
    (secret_iff_no_serviceAccount_or_resolved examplePodOptOut none (by decide)).2
      (Or.inl rfl),
    fun hin =>
      absurd
        ((secret_iff_no_serviceAccount_or_resolved examplePodOptOut (some {}) (by decide)).1
          hin)
        (by decide)⟩

/-- C8 fails as stated: for a pod that opts out of the token mount, with an emptyDir
volume only and no service account supplied, the resolved automount decision is "not
mounted", yet `getVolumeTypes` returns "secret": without a service account the pod-level
flag is not consulted. -/
theorem pod_opt_out_ignored_without_serviceAccount :
    examplePodOptOut.AutomountServiceAccountToken = some false ∧
    (∀ v ∈ examplePodOptOut.Volumes, getVolumeType v ≠ "secret") ∧
    resolvedAutomount examplePodOptOut none = false ∧
    "secret" ∈ getVolumeTypes examplePodOptOut none ∧
    ¬ ("secret" ∈ getVolumeTypes examplePodOptOut none ↔
      resolvedAutomount examplePodOptOut none = true) := by
  decide

/-- C9, the code at the failing input: a container whose security context exists and
leaves RunAsUser, RunAsGroup and RunAsNonRoot unset, in a pod whose security context sets
all three.  The three getters return nil, and the container spec has no RunAsUser. -/
theorem pod_level_fallback_skipped :
    getRunAsUser (some { Privileged := some false }) examplePodFallback.SecurityContext =
      none ∧
    getRunAsGroup (some { Privileged := some false }) examplePodFallback.SecurityContext =
      none ∧
    getRunAsNonRootUser (some { Privileged := some false })
      examplePodFallback.SecurityContext = none ∧
    examplePodFallback.SecurityContext =
      some { RunAsUser := some 1000, RunAsGroup := some 3000, RunAsNonRoot := some true } ∧
    (GetSecuritySpecFromPodSpec (exampleEnv false) {} "default" examplePodFallback none).1.map
      (fun sc => (sc.RunAsUser, sc.RunAsGroup, sc.RunAsNonRoot)) = [(none, none, none)] := by
  decide

/-- C10, the code at the failing inputs.  A pod whose first container adds SYS_TIME twice
and whose second container adds nothing: SYS_TIME is a default-add capability although
the second container spec does not add it.  A pod whose only container adds SYS_TIME
twice: SYS_TIME is not a default-add capability although every container spec adds it. -/
theorem defaultAdd_counts_occurrences :
    (∃ psp, GeneratePSP (exampleEnv false)
        (GetSecuritySpecFromPodSpec (exampleEnv false) {} "default" examplePodAddTwice none).1
        [] "default" "v1.11" = some psp ∧
      psp.Spec.DefaultAddCapabilities = ["SYS_TIME"] ∧
      (GetSecuritySpecFromPodSpec (exampleEnv false) {} "default" examplePodAddTwice none).1.map
        (fun sc => sc.AddedCap) = [["SYS_TIME", "SYS_TIME"], []]) ∧
    (∃ psp, GeneratePSP (exampleEnv false)
        (GetSecuritySpecFromPodSpec (exampleEnv false) {} "default" examplePodAddTwiceAlone
          none).1
        [] "default" "v1.11" = some psp ∧
      psp.Spec.DefaultAddCapabilities = [] ∧
      (GetSecuritySpecFromPodSpec (exampleEnv false) {} "default" examplePodAddTwiceAlone
        none).1.map (fun sc => sc.AddedCap) = [["SYS_TIME", "SYS_TIME"]]) := by
  exact ⟨⟨_, rfl, by decide, by decide⟩, ⟨_, rfl, by decide, by decide⟩⟩

/-! ## Tallies of added and dropped capabilities -/

theorem get?_increment (m : GoMap String Nat) (c k : String) :
    (increment m c).get? k =
      if c = k then some ((m.get? c).getD 0 + 1) else m.get? k := by
  unfold increment
  rw [GoMap.get?_set]

theorem foldl_increment (l : List String) (m : GoMap String Nat) (h : m.keys.Nodup)
    (k : String) :
    (GoMap.keys (l.foldl increment m)).Nodup ∧
      GoMap.get? (l.foldl increment m) k =
        if l.count k = 0 then m.get? k else some ((m.get? k).getD 0 + l.count k) := by
  induction l generalizing m with
  | nil => exact ⟨by simpa using h, by simp⟩
  | cons a rest ih =>
    obtain ⟨h1, h2⟩ := ih (increment m a) (GoMap.nodup_keys_set _ _ _ h)
    refine ⟨h1, ?_⟩
    rw [List.foldl_cons, h2, get?_increment]
    by_cases hak : a = k
    · subst hak
      by_cases hc : rest.count a = 0
      · simp [hc]
      · simp [hc, Nat.add_assoc, Nat.add_comm]
    · have hka : ¬ (a == k) = true := by simpa using hak
      simp [hak, List.count_cons, hka]

theorem foldl_tally (f : ContainerSecuritySpec → List String)
    (css : List ContainerSecuritySpec) (m : GoMap String Nat) (h : m.keys.Nodup)
    (k : String) :
    (GoMap.keys (css.foldl (fun m sc => (f sc).foldl increment m) m)).Nodup ∧
      GoMap.get? (css.foldl (fun m sc => (f sc).foldl increment m) m) k =
        if occurrences f css k = 0 then m.get? k
        else some ((m.get? k).getD 0 + occurrences f css k) := by
  induction css generalizing m with
  | nil => exact ⟨by simpa using h, by simp [occurrences]⟩
  | cons sc rest ih =>
    obtain ⟨k1, k2⟩ := foldl_increment (f sc) m h k
    obtain ⟨h1, h2⟩ := ih ((f sc).foldl increment m) k1
    refine ⟨h1, ?_⟩
    rw [List.foldl_cons, h2, k2]
    have ho : occurrences f (sc :: rest) k = (f sc).count k + occurrences f rest k := by
      simp [occurrences]
    rw [ho]
    by_cases hr : occurrences f rest k = 0
    · by_cases hs : (f sc).count k = 0
      · simp [hr, hs]
      · simp [hr, hs]
    · by_cases hs : (f sc).count k = 0
      · simp [hr, hs]
      · have : ¬ ((f sc).count k + occurrences f rest k = 0) := by omega
        simp [hr, hs, this, Nat.add_assoc]

theorem mem_filter_value (m : GoMap String Nat) (h : m.keys.Nodup) (n : Nat) (c : String) :
    c ∈ (m.filter (fun kv => kv.2 = n)).map Prod.fst ↔ m.get? c = some n := by
  rw [← GoMap.mem_iff_get? m h]
  simp only [List.mem_map, List.mem_filter, decide_eq_true_eq]
  constructor
  · rintro ⟨⟨k, v⟩, ⟨hm, hv⟩, hk⟩
    simp only at hv hk
    rw [← hk, ← hv]
    exact hm
  · intro hm
    exact ⟨(c, n), ⟨hm, rfl⟩, rfl⟩

/-- A capability passes the tally test exactly when the lists name it `len(cssList)` times
in all, and at least once. -/
theorem mem_tally_filter (f : ContainerSecuritySpec → List String)
    (css : List ContainerSecuritySpec) (c : String) :
    c ∈ ((css.foldl (fun m sc => (f sc).foldl increment m) []).filter
        (fun kv => kv.2 = css.length)).map Prod.fst ↔
      occurrences f css c = css.length ∧ occurrences f css c ≠ 0 := by
  obtain ⟨h1, h2⟩ := foldl_tally f css [] (by simp [GoMap.keys]) c
  rw [mem_filter_value _ h1, h2]
  by_cases h0 : occurrences f css c = 0
  · simp [h0, GoMap.get?]
  · simp [h0, GoMap.get?]

theorem occurrences_of_nodup (f : ContainerSecuritySpec → List String)
    (css : List ContainerSecuritySpec) (c : String) (h : ∀ sc ∈ css, (f sc).Nodup) :
    occurrences f css c = css.countP (fun sc => decide (c ∈ f sc)) := by
  induction css with
  | nil => simp [occurrences]
  | cons sc rest ih =>
    have h1 : (f sc).Nodup := h sc (List.mem_cons_self _ _)
    have h2 := ih (fun x hx => h x (List.mem_cons_of_mem _ hx))
    have ho : occurrences f (sc :: rest) c = (f sc).count c + occurrences f rest c := by
      simp [occurrences]
    rw [ho, h2, List.countP_cons]
    by_cases hc : c ∈ f sc
    · rw [List.count_eq_one_of_mem h1 hc]
      simp [hc, Nat.add_comm]
    · rw [List.count_eq_zero_of_not_mem hc]
      simp [hc]

/-- When no list names a capability twice and there is a container spec, a capability
passes the tally test exactly when every container spec names it. -/
theorem mem_tally_filter_of_nodup (f : ContainerSecuritySpec → List String)
    (css : List ContainerSecuritySpec) (c : String) (h : ∀ sc ∈ css, (f sc).Nodup)
    (hne : css ≠ []) :
    c ∈ ((css.foldl (fun m sc => (f sc).foldl increment m) []).filter
        (fun kv => kv.2 = css.length)).map Prod.fst ↔
      ∀ sc ∈ css, c ∈ f sc := by
  rw [mem_tally_filter, occurrences_of_nodup f css c h, countP_eq_length_iff]
  have hl : css.length ≠ 0 := fun e => hne (List.length_eq_zero.1 e)
  constructor
  · intro e sc hsc
    simpa using e.1 sc hsc
  · intro e
    have e1 : ∀ a ∈ css, decide (c ∈ f a) = true := fun sc hsc => by simpa using e sc hsc
    refine ⟨e1, ?_⟩
    rw [(countP_eq_length_iff _ css).2 e1]
    exact hl

/-- When no add list and no drop list names a capability twice, the default-add
capabilities are those every container spec adds and the required-drop capabilities those
every container spec drops. -/
theorem tallies_of_nodup (env : Env) (css : List ContainerSecuritySpec)
    (pss : List PodSecuritySpec) (ns ver : String) (hne : css ≠ [])
    (ha : ∀ sc ∈ css, sc.AddedCap.Nodup) (hd : ∀ sc ∈ css, sc.DroppedCap.Nodup) :
    ∃ psp, GeneratePSP env css pss ns ver = some psp ∧
      (∀ c, c ∈ psp.Spec.DefaultAddCapabilities ↔ ∀ sc ∈ css, c ∈ sc.AddedCap) ∧
      (∀ c, c ∈ psp.Spec.RequiredDropCapabilities ↔ ∀ sc ∈ css, c ∈ sc.DroppedCap) :=
  ⟨_, GeneratePSP_eq env css pss ns ver (nonempty_inputs (Or.inl hne)),
    fun c => mem_tally_filter_of_nodup (fun sc => sc.AddedCap) css c ha hne,
    fun c => mem_tally_filter_of_nodup (fun sc => sc.DroppedCap) css c hd hne⟩

/-- C11, the code at the failing inputs.  A pod whose first container drops NET_RAW twice
and whose second container drops nothing: NET_RAW is a required-drop capability although
the second container spec does not drop it.  A pod whose only container drops NET_RAW
twice: NET_RAW is not a required-drop capability although every container spec drops
it. -/
theorem requiredDrop_counts_occurrences :
    (∃ psp, GeneratePSP (exampleEnv false)
        (GetSecuritySpecFromPodSpec (exampleEnv false) {} "default" examplePodDropTwice none).1
        [] "default" "v1.11" = some psp ∧
      psp.Spec.RequiredDropCapabilities = ["NET_RAW"] ∧
      (GetSecuritySpecFromPodSpec (exampleEnv false) {} "default" examplePodDropTwice none).1.map
        (fun sc => sc.DroppedCap) = [["NET_RAW", "NET_RAW"], []]) ∧
    (∃ psp, GeneratePSP (exampleEnv false)
        (GetSecuritySpecFromPodSpec (exampleEnv false) {} "default" examplePodDropTwiceAlone
          none).1
        [] "default" "v1.11" = some psp ∧
      psp.Spec.RequiredDropCapabilities = [] ∧
      (GetSecuritySpecFromPodSpec (exampleEnv false) {} "default" examplePodDropTwiceAlone
        none).1.map (fun sc => sc.DroppedCap) = [["NET_RAW", "NET_RAW"]]) := by
  exact ⟨⟨_, rfl, by decide, by decide⟩, ⟨_, rfl, by decide, by decide⟩⟩

/-! ## Allowed capabilities, flags and default strategies -/

/-- C12: whenever `GeneratePSP` returns a policy, a capability is allowed exactly when it
is among the effective capabilities of some container spec and is not in the default
table; so the allowed capabilities and the default table are disjoint. -/
theorem allowedCapabilities_beyond_baseline (env : Env) (css : List ContainerSecuritySpec)
    (pss : List PodSecuritySpec) (ns ver : String) (h : css ≠ [] ∨ pss ≠ []) :
    ∃ psp, GeneratePSP env css pss ns ver = some psp ∧
      (∀ c, c ∈ psp.Spec.AllowedCapabilities ↔
        (∃ sc ∈ css, c ∈ sc.Capabilities) ∧ c ∉ env.DefaultCaps) ∧
      (∀ c, c ∈ psp.Spec.AllowedCapabilities → c ∉ env.DefaultCaps) := by
  refine ⟨_, GeneratePSP_eq env css pss ns ver (nonempty_inputs h), ?_, ?_⟩
  · intro c
    exact mem_allowedCapabilities env.DefaultCaps css c
  · intro c hc
    exact ((mem_allowedCapabilities env.DefaultCaps css c).1 hc).2

/-- Witness for C12: the container specs A, B and C over the table `exampleCaps`. -/
theorem allowedCapabilities_beyond_baseline_witness :
    (exampleABC exampleCaps ≠ [] ∨ ([] : List PodSecuritySpec) ≠ []) ∧
    ∃ psp, GeneratePSP (exampleEnv false) (exampleABC exampleCaps) [] "" "" = some psp ∧
      (∀ c, c ∈ psp.Spec.AllowedCapabilities ↔
        (∃ sc ∈ exampleABC exampleCaps, c ∈ sc.Capabilities) ∧
          c ∉ (exampleEnv false).DefaultCaps) ∧
      (∀ c, c ∈ psp.Spec.AllowedCapabilities → c ∉ (exampleEnv false).DefaultCaps) :=
  ⟨Or.inl (by decide),
    allowedCapabilities_beyond_baseline (exampleEnv false) (exampleABC exampleCaps) [] "" ""
      (Or.inl (by decide))⟩

/-- C13: whenever `GeneratePSP` returns a policy, HostPID, HostIPC and HostNetwork are the
disjunctions of these flags over the pod specs, and Privileged and ReadOnlyRootFilesystem
the disjunctions of Privileged and ReadOnlyRootFS over the container specs; each is true
exactly when some spec sets the flag, hence false over an empty list. -/
theorem flags_are_disjunctions (env : Env) (css : List ContainerSecuritySpec)
    (pss : List PodSecuritySpec) (ns ver : String) (h : css ≠ [] ∨ pss ≠ []) :
    ∃ psp, GeneratePSP env css pss ns ver = some psp ∧
      psp.Spec.HostPID = pss.any (fun ps => ps.HostPID) ∧
      psp.Spec.HostIPC = pss.any (fun ps => ps.HostIPC) ∧
      psp.Spec.HostNetwork = pss.any (fun ps => ps.HostNetwork) ∧
      psp.Spec.Privileged = css.any (fun sc => sc.Privileged) ∧
      psp.Spec.ReadOnlyRootFilesystem = css.any (fun sc => sc.ReadOnlyRootFS) ∧
      (psp.Spec.HostPID = true ↔ ∃ ps ∈ pss, ps.HostPID = true) ∧
      (psp.Spec.HostIPC = true ↔ ∃ ps ∈ pss, ps.HostIPC = true) ∧
      (psp.Spec.HostNetwork = true ↔ ∃ ps ∈ pss, ps.HostNetwork = true) ∧
      (psp.Spec.Privileged = true ↔ ∃ sc ∈ css, sc.Privileged = true) ∧
      (psp.Spec.ReadOnlyRootFilesystem = true ↔ ∃ sc ∈ css, sc.ReadOnlyRootFS = true) ∧
      (pss = [] → psp.Spec.HostPID = false ∧ psp.Spec.HostIPC = false ∧
        psp.Spec.HostNetwork = false) ∧
      (css = [] → psp.Spec.Privileged = false ∧ psp.Spec.ReadOnlyRootFilesystem = false) := by
  refine ⟨_, GeneratePSP_eq env css pss ns ver (nonempty_inputs h),
    rfl, rfl, rfl, rfl, rfl, ?_, ?_, ?_, ?_, ?_, ?_, ?_⟩
  · exact List.any_eq_true
  · exact List.any_eq_true
  · exact List.any_eq_true
  · exact List.any_eq_true
  · exact List.any_eq_true
  · intro e
    subst e
    exact ⟨rfl, rfl, rfl⟩
  · intro e
    subst e
    exact ⟨rfl, rfl⟩

/-- Witness for C13: the privileged container spec B among A, B and C, and no pod spec. -/
theorem flags_are_disjunctions_witness :
    (exampleABC exampleCaps ≠ [] ∨ ([] : List PodSecuritySpec) ≠ []) ∧
    ∃ psp, GeneratePSP (exampleEnv false) (exampleABC exampleCaps) [] "" "" = some psp ∧
      psp.Spec.Privileged = true ∧ psp.Spec.HostPID = false := by
  refine ⟨Or.inl (by decide), ?_⟩
  obtain ⟨psp, h1, h2⟩ :=
    flags_are_disjunctions (exampleEnv false) (exampleABC exampleCaps) [] "" ""
      (Or.inl (by decide))
  refine ⟨psp, h1, ?_, ?_⟩
  · rw [h2.2.2.2.1]
    decide
  · rw [h2.1]
    rfl

/-- C14, as amended: whenever `GeneratePSP` returns a policy, FSGroup, SELinux and
SupplementalGroups carry the rule RunAsAny, and RunAsGroup is absent: it is a pointer the
generator never sets, and the default is given to a RunAsGroup that is present only. -/
theorem default_strategies (env : Env) (css : List ContainerSecuritySpec)
    (pss : List PodSecuritySpec) (ns ver : String) (h : css ≠ [] ∨ pss ≠ []) :
    ∃ psp, GeneratePSP env css pss ns ver = some psp ∧
      psp.Spec.FSGroup.Rule = FSGroupStrategyRunAsAny ∧
      psp.Spec.SELinux.Rule = SELinuxStrategyRunAsAny ∧
      psp.Spec.SupplementalGroups.Rule = SupplementalGroupsStrategyRunAsAny ∧
      psp.Spec.RunAsGroup = none :=
  ⟨_, GeneratePSP_eq env css pss ns ver (nonempty_inputs h), rfl, rfl, rfl, rfl⟩

/-- Witness for C14 as amended: one container spec and no pod spec. -/
theorem default_strategies_witness :
    (exampleSingle ≠ [] ∨ ([] : List PodSecuritySpec) ≠ []) ∧
    ∃ psp, GeneratePSP (exampleEnv false) exampleSingle [] "" "" = some psp ∧
      psp.Spec.FSGroup.Rule = FSGroupStrategyRunAsAny ∧
      psp.Spec.SELinux.Rule = SELinuxStrategyRunAsAny ∧
      psp.Spec.SupplementalGroups.Rule = SupplementalGroupsStrategyRunAsAny ∧
      psp.Spec.RunAsGroup = none :=
  ⟨Or.inl (by decide),
    default_strategies (exampleEnv false) exampleSingle [] "" "" (Or.inl (by decide))⟩

/-- C14 fails as stated: the policy of one container spec has no RunAsGroup strategy, so
RunAsGroup is not present with the rule RunAsAny. -/
theorem runAsGroup_absent :
    ∃ psp, GeneratePSP (exampleEnv false) exampleSingle [] "" "" = some psp ∧
      ¬ ∃ g, psp.Spec.RunAsGroup = some g ∧ g.Rule = RunAsGroupStrategyRunAsAny := by
  refine ⟨_, GeneratePSP_eq (exampleEnv false) exampleSingle [] "" ""
    (nonempty_inputs (Or.inl (by decide))), ?_⟩
  rintro ⟨g, hg, _⟩
  simp at hg

/-- C18: whenever `GeneratePSP` returns a policy, the uid ranges of RunAsUser are empty.
The loop over the uids runs with the rule just set to MustRunAs, so its body, which appends
a range under the rule MustRunAsNonRoot only, leaves the policy as it is. -/
theorem runAsUser_ranges_empty (env : Env) (css : List ContainerSecuritySpec)
    (pss : List PodSecuritySpec) (ns ver : String) (h : css ≠ [] ∨ pss ≠ []) :
    (∃ psp, GeneratePSP env css pss ns ver = some psp ∧ psp.Spec.RunAsUser.Ranges = []) ∧
    (∀ (psp : PodSecurityPolicy) (uid : Int),
      psp.Spec.RunAsUser.Rule = RunAsUserStrategyMustRunAs → appendRange psp uid = psp) ∧
    (∀ (s : GenState) (psp : PodSecurityPolicy),
      (setRunAsUserStrategy s css.length psp).Spec.RunAsUser.Ranges =
        psp.Spec.RunAsUser.Ranges) := by
  refine ⟨⟨_, GeneratePSP_eq env css pss ns ver (nonempty_inputs h), rfl⟩, ?_, ?_⟩
  · intro psp uid hr
    exact foldl_appendRange_MustRunAs [uid] psp hr
  · intro s psp
    rw [setRunAsUserStrategy_eq]

/-- Witness for C18: three container specs that all declare non-zero uids, where the rule
is MustRunAs. -/
theorem runAsUser_ranges_empty_witness :
    (exampleUids ≠ [] ∨ ([] : List PodSecuritySpec) ≠ []) ∧
    ∃ psp, GeneratePSP (exampleEnv false) exampleUids [] "" "" = some psp ∧
      psp.Spec.RunAsUser.Ranges = [] :=
  ⟨Or.inl (by decide),
    (runAsUser_ranges_empty (exampleEnv false) exampleUids [] "" "" (Or.inl (by decide))).1⟩

/-! ## The extractor -/

theorem foldl_append_map {α β : Type} (g : α → β) (l : List α) (init : List β) :
    l.foldl (fun acc x => acc ++ [g x]) init = init ++ l.map g := by
  induction l generalizing init with
  | nil => simp
  | cons a rest ih => simp [ih]

/-- The container specs of a pod: those of its init containers, then those of its regular
containers. -/
theorem GetSecuritySpecFromPodSpec_fst (env : Env) (metadata : Metadata) (ns : String)
    (spec : PodSpec) (sa : Option ServiceAccount) :
    (GetSecuritySpecFromPodSpec env metadata ns spec sa).1 =
      spec.InitContainers.map (initContainerSpec env metadata ns spec) ++
        spec.Containers.map (containerSpec env metadata ns spec) := by
  unfold GetSecuritySpecFromPodSpec
  simp only [foldl_append_map, List.nil_append]

/-- C17: the container specs of a pod are as many as its init containers and regular
containers together; the first ones are those of the init containers, in order, the others
those of the regular containers, in order; and an init container and a regular container
get their spec by the same rules. -/
theorem init_containers_first (env : Env) (metadata : Metadata) (ns : String)
    (spec : PodSpec) (sa : Option ServiceAccount) :
    (GetSecuritySpecFromPodSpec env metadata ns spec sa).1.length =
      spec.InitContainers.length + spec.Containers.length ∧
    (GetSecuritySpecFromPodSpec env metadata ns spec sa).1 =
      spec.InitContainers.map (initContainerSpec env metadata ns spec) ++
        spec.Containers.map (containerSpec env metadata ns spec) ∧
    (∀ (i : Nat) (c : Container), spec.InitContainers[i]? = some c →
      (GetSecuritySpecFromPodSpec env metadata ns spec sa).1[i]? =
        some (initContainerSpec env metadata ns spec c)) ∧
    (∀ (i : Nat) (c : Container), spec.Containers[i]? = some c →
      (GetSecuritySpecFromPodSpec env metadata ns spec sa).1[spec.InitContainers.length + i]? =
        some (containerSpec env metadata ns spec c)) ∧
    (∀ c : Container,
      initContainerSpec env metadata ns spec c = containerSpec env metadata ns spec c) ∧
    (∀ c : Container,
      containerSpec env metadata ns spec c =
        { Metadata := metadata
          ContainerName := c.Name
          ImageName := c.Image
          PodName := metadata.Name
          Namespace := ns
          HostName := spec.NodeName
          Capabilities :=
            getEffectiveCapablities env.DefaultCaps (getCapabilities c.SecurityContext).1
              (getCapabilities c.SecurityContext).2
          AddedCap := (getCapabilities c.SecurityContext).1
          DroppedCap := (getCapabilities c.SecurityContext).2
          ReadOnlyRootFS := getReadOnlyRootFileSystem c.SecurityContext
          RunAsNonRoot := getRunAsNonRootUser c.SecurityContext spec.SecurityContext
          AllowPrivilegeEscalation := getAllowedPrivilegeEscalation c.SecurityContext
          Privileged := getPrivileged c.SecurityContext
          RunAsGroup := getRunAsGroup c.SecurityContext spec.SecurityContext
          RunAsUser := getRunAsUser c.SecurityContext spec.SecurityContext
          HostPorts := getHostPorts c.Ports }) := by
  rw [GetSecuritySpecFromPodSpec_fst]
  refine ⟨by simp, rfl, ?_, ?_, fun _ => rfl, fun _ => rfl⟩
  · intro i c hc
    have hi : i < (spec.InitContainers.map (initContainerSpec env metadata ns spec)).length := by
      rw [List.length_map]
      exact (List.getElem?_eq_some.1 hc).1
    rw [List.getElem?_append_left hi, List.getElem?_map, hc]
    rfl
  · intro i c hc
    have hl : (spec.InitContainers.map (initContainerSpec env metadata ns spec)).length ≤
        spec.InitContainers.length + i := by
      rw [List.length_map]
      exact Nat.le_add_right _ _
    rw [List.getElem?_append_right hl, List.length_map, Nat.add_sub_cancel_left,
      List.getElem?_map, hc]
    rfl

/-! ## Host paths of a pod -/

theorem get?_recordMount (m : GoMap String Bool) (vm : VolumeMount) (k : String) :
    (recordMount m vm).get? k =
      if vm.Name = k then some ((m.get? vm.Name).getD true && vm.ReadOnly) else m.get? k := by
  unfold recordMount
  cases h : m.get? vm.Name <;> simp [GoMap.get?_set]

theorem mem_keys_recordMount (m : GoMap String Bool) (vm : VolumeMount) (k : String) :
    k ∈ (recordMount m vm).keys ↔ k = vm.Name ∨ k ∈ m.keys := by
  unfold recordMount
  cases m.get? vm.Name <;> exact GoMap.mem_keys_set _ _ _ _

theorem mem_keys_foldl_recordMount (vms : List VolumeMount) (m : GoMap String Bool)
    (k : String) :
    k ∈ GoMap.keys (vms.foldl recordMount m) ↔ (∃ vm ∈ vms, vm.Name = k) ∨ k ∈ m.keys := by
  induction vms generalizing m with
  | nil => simp
  | cons vm rest ih =>
    rw [List.foldl_cons, ih, mem_keys_recordMount]
    simp only [List.mem_cons, exists_eq_or_imp]
    constructor
    · rintro (e | e | e)
      · exact Or.inl (Or.inr e)
      · exact Or.inl (Or.inl e.symm)
      · exact Or.inr e
    · rintro ((e | e) | e)
      · exact Or.inr (Or.inl e.symm)
      · exact Or.inl e
      · exact Or.inr (Or.inr e)

theorem mem_keys_mountLoop (cs : List Container) (m : GoMap String Bool) (k : String) :
    k ∈ GoMap.keys (cs.foldl (fun m c => c.VolumeMounts.foldl recordMount m) m) ↔
      (∃ c ∈ cs, ∃ vm ∈ c.VolumeMounts, vm.Name = k) ∨ k ∈ m.keys := by
  induction cs generalizing m with
  | nil => simp
  | cons c rest ih =>
    rw [List.foldl_cons, ih, mem_keys_foldl_recordMount]
    simp only [List.mem_cons, exists_eq_or_imp]
    constructor
    · rintro (e | e | e)
      · exact Or.inl (Or.inr e)
      · exact Or.inl (Or.inl e)
      · exact Or.inr e
    · rintro ((e | e) | e)
      · exact Or.inr (Or.inl e)
      · exact Or.inl e
      · exact Or.inr (Or.inr e)

/-- The volume names in the mount map are those some container or init container mounts. -/
theorem mem_keys_containerMountMap (spec : PodSpec) (k : String) :
    k ∈ (containerMountMap spec).keys ↔
      ∃ c ∈ spec.Containers ++ spec.InitContainers, ∃ vm ∈ c.VolumeMounts, vm.Name = k := by
  unfold containerMountMap
  simp only []
  rw [mem_keys_mountLoop, mem_keys_mountLoop]
  simp only [GoMap.keys, List.map_nil, List.not_mem_nil, or_false, List.mem_append]
  constructor
  · rintro (⟨c, hc, e⟩ | ⟨c, hc, e⟩)
    · exact ⟨c, Or.inr hc, e⟩
    · exact ⟨c, Or.inl hc, e⟩
  · rintro ⟨c, hc | hc, e⟩
    · exact Or.inr ⟨c, hc, e⟩
    · exact Or.inl ⟨c, hc, e⟩

theorem mem_keys_hostPathLoop (mounts : GoMap String Bool) (vols : List Volume)
    (m : GoMap String Bool) (p : String) :
    p ∈ GoMap.keys
        (vols.foldl
          (fun hostPathMap v =>
            match v.VolumeSource.HostPath with
            | some hp =>
              match mounts.get? v.Name with
              | some ro => hostPathMap.set hp.Path ro
              | none => hostPathMap
            | none => hostPathMap)
          m) ↔
      (∃ v ∈ vols, ∃ hp, v.VolumeSource.HostPath = some hp ∧ hp.Path = p ∧
        v.Name ∈ mounts.keys) ∨ p ∈ m.keys := by
  induction vols generalizing m with
  | nil => simp
  | cons v rest ih =>
    rw [List.foldl_cons, ih]
    simp only [List.mem_cons, exists_eq_or_imp]
    cases hhp : v.VolumeSource.HostPath with
    | none =>
      simp
    | some hp =>
      cases hg : mounts.get? v.Name with
      | none =>
        have hn : v.Name ∉ mounts.keys := (GoMap.get?_eq_none_iff mounts v.Name).1 hg
        simp only [hn, and_false, exists_false, false_or]
      | some ro =>
        have hy : v.Name ∈ mounts.keys := by
          rw [← GoMap.get?_isSome_iff, hg]
          rfl
        simp only [GoMap.mem_keys_set, Option.some.injEq, hy, and_true, exists_eq_left']
        constructor
        · rintro (e | e | e)
          · exact Or.inl (Or.inr e)
          · exact Or.inl (Or.inl e.symm)
          · exact Or.inr e
        · rintro ((e | e) | e)
          · exact Or.inr (Or.inl e.symm)
          · exact Or.inl e
          · exact Or.inr (Or.inr e)

/-- C15: a path is a key of the host-path map of a pod exactly when the pod declares a
host-path volume with this path whose name some volume mount of a container or of an init
container refers to; so when no volume mount refers to a host-path volume with this path,
the path is not a key: a host-path volume that nothing mounts contributes no entry. -/
theorem hostPath_iff_mounted (spec : PodSpec) (p : String) :
    (p ∈ (getVolumeHostPaths spec).keys ↔
      ∃ v ∈ spec.Volumes, ∃ hp, v.VolumeSource.HostPath = some hp ∧ hp.Path = p ∧
        ∃ c ∈ spec.Containers ++ spec.InitContainers, ∃ vm ∈ c.VolumeMounts,
          vm.Name = v.Name) ∧
    ((∀ v ∈ spec.Volumes, ∀ hp, v.VolumeSource.HostPath = some hp → hp.Path = p →
        ∀ c ∈ spec.Containers ++ spec.InitContainers, ∀ vm ∈ c.VolumeMounts,
          vm.Name ≠ v.Name) →
      p ∉ (getVolumeHostPaths spec).keys) := by
  have key : p ∈ (getVolumeHostPaths spec).keys ↔
      ∃ v ∈ spec.Volumes, ∃ hp, v.VolumeSource.HostPath = some hp ∧ hp.Path = p ∧
        ∃ c ∈ spec.Containers ++ spec.InitContainers, ∃ vm ∈ c.VolumeMounts,
          vm.Name = v.Name := by
    unfold getVolumeHostPaths
    simp only []
    rw [mem_keys_hostPathLoop]
    simp only [GoMap.keys, List.map_nil, List.not_mem_nil, or_false]
    constructor
    · rintro ⟨v, hv, hp, e1, e2, e3⟩
      exact ⟨v, hv, hp, e1, e2, (mem_keys_containerMountMap spec v.Name).1 e3⟩
    · rintro ⟨v, hv, hp, e1, e2, e3⟩
      exact ⟨v, hv, hp, e1, e2, (mem_keys_containerMountMap spec v.Name).2 e3⟩
  refine ⟨key, fun hno hin => ?_⟩
  obtain ⟨v, hv, hp, e1, e2, c, hc, vm, hvm, e3⟩ := key.1 hin
  exact hno v hv hp e1 e2 c hc vm hvm e3

/-- C16, the code at the failing input: two host-path volumes on "/data", the first
mounted writable and the second read-only.  The flag recorded for "/data" is the one of
the volume declared last: true here, although a mount of a host-path volume with path
"/data" is writable, and false when the two volumes are declared in the other order. -/
theorem shared_path_last_volume_wins :
    getVolumeHostPaths examplePodSharedPath = [("/data", true)] ∧
    (examplePodSharedPath.Volumes.map
      (fun v => (v.Name, v.VolumeSource.HostPath.map (fun hp => hp.Path))) =
        [("data-rw", some "/data"), ("data-ro", some "/data")]) ∧
    (examplePodSharedPath.Containers.map (fun c => c.VolumeMounts) =
      [[{ Name := "data-rw", ReadOnly := false }], [{ Name := "data-ro", ReadOnly := true }]]) ∧
    getVolumeHostPaths examplePodSharedPathSwapped = [("/data", false)] := by
  decide

/-- The capabilities of an extracted container spec are the effective capabilities of its
own add and drop lists. -/
theorem extracted_capabilities (env : Env) (metadata : Metadata) (ns : String)
    (spec : PodSpec) (sa : Option ServiceAccount) (sc : ContainerSecuritySpec)
    (h : sc ∈ (GetSecuritySpecFromPodSpec env metadata ns spec sa).1) :
    sc.Capabilities = getEffectiveCapablities env.DefaultCaps sc.AddedCap sc.DroppedCap := by
  rw [GetSecuritySpecFromPodSpec_fst, List.mem_append, List.mem_map, List.mem_map] at h
  rcases h with ⟨c, _, e⟩ | ⟨c, _, e⟩
  · rw [← e]
    rfl
  · rw [← e]
    rfl

/-- C20, as amended: when every container spec comes from `GetSecuritySpecFromPodSpec` and
no drop list names a capability twice, a required-drop capability of the policy is in
the drop list of every container spec, and it is effective for a container spec only if
this container spec adds it as well: no capability that a container spec holds from the
default table alone is required to be dropped. -/
theorem requiredDrop_effective_only_if_added (env : Env) (css : List ContainerSecuritySpec)
    (pss : List PodSecuritySpec) (ns ver : String)
    (hne : css ≠ [] ∨ pss ≠ [])
    (hext : ∀ sc ∈ css, ∃ metadata nsp spec sa,
      sc ∈ (GetSecuritySpecFromPodSpec env metadata nsp spec sa).1)
    (hnd : ∀ sc ∈ css, sc.DroppedCap.Nodup) :
    ∃ psp, GeneratePSP env css pss ns ver = some psp ∧
      ∀ c ∈ psp.Spec.RequiredDropCapabilities, ∀ sc ∈ css,
        c ∈ sc.DroppedCap ∧ (c ∈ sc.Capabilities → c ∈ sc.AddedCap) := by
  refine ⟨_, GeneratePSP_eq env css pss ns ver (nonempty_inputs hne), ?_⟩
  intro c hc sc hsc
  have hc' := (mem_tally_filter (fun sc => sc.DroppedCap) css c).1 hc
  rw [occurrences_of_nodup (fun sc => sc.DroppedCap) css c hnd, countP_eq_length_iff] at hc'
  have hd : c ∈ sc.DroppedCap := by simpa using hc'.1 sc hsc
  refine ⟨hd, fun he => ?_⟩
  obtain ⟨metadata, nsp, spec, sa, hin⟩ := hext sc hsc
  rw [extracted_capabilities env metadata nsp spec sa sc hin,
    mem_getEffectiveCapablities] at he
  rcases he with ⟨_, hnot⟩ | hadd
  · exact absurd hd hnot
  · exact hadd

/-- Witness for C20 as amended: the container specs of a pod whose two containers drop
NET_RAW. -/
theorem requiredDrop_effective_only_if_added_witness :
    ((GetSecuritySpecFromPodSpec (exampleEnv false) {} "default" examplePodDropNetRaw none).1 ≠
        [] ∨ ([] : List PodSecuritySpec) ≠ []) ∧
    (∀ sc ∈ (GetSecuritySpecFromPodSpec (exampleEnv false) {} "default" examplePodDropNetRaw
        none).1, sc.DroppedCap.Nodup) ∧
    ∃ psp, GeneratePSP (exampleEnv false)
        (GetSecuritySpecFromPodSpec (exampleEnv false) {} "default" examplePodDropNetRaw none).1
        [] "default" "v1.11" = some psp ∧
      ∀ c ∈ psp.Spec.RequiredDropCapabilities,
        ∀ sc ∈ (GetSecuritySpecFromPodSpec (exampleEnv false) {} "default"
            examplePodDropNetRaw none).1,
          c ∈ sc.DroppedCap ∧ (c ∈ sc.Capabilities → c ∈ sc.AddedCap) :=
  ⟨Or.inl (by decide), by decide,
    requiredDrop_effective_only_if_added (exampleEnv false) _ [] "default" "v1.11"
      (Or.inl (by decide)) (fun sc hsc => ⟨{}, "default", examplePodDropNetRaw, none, hsc⟩)
      (by decide)⟩

/-- C20 fails as stated: for a pod whose only container both adds and drops NET_ADMIN, the
policy requires NET_ADMIN to be dropped while NET_ADMIN is an effective capability of the
container spec. -/
theorem requiredDrop_of_added_capability :
    ∃ psp, GeneratePSP (exampleEnv false)
        (GetSecuritySpecFromPodSpec (exampleEnv false) {} "default" examplePodAddAndDrop none).1
        [(GetSecuritySpecFromPodSpec (exampleEnv false) {} "default" examplePodAddAndDrop
          none).2]
        "default" "v1.11" = some psp ∧
      "NET_ADMIN" ∈ psp.Spec.RequiredDropCapabilities ∧
      ∃ sc ∈ (GetSecuritySpecFromPodSpec (exampleEnv false) {} "default" examplePodAddAndDrop
          none).1, "NET_ADMIN" ∈ sc.Capabilities := by
  refine ⟨_, rfl, by decide, ?_⟩
  exact ⟨_, List.mem_singleton.2 rfl, by decide⟩

/-! ## Independence of the order of the specs -/

theorem perm_any_eq {α : Type} (f : α → Bool) {l1 l2 : List α} (h : l1.Perm l2) :
    l1.any f = l2.any f := by
  rw [Bool.eq_iff_iff, List.any_eq_true, List.any_eq_true]
  constructor
  · rintro ⟨x, hx, e⟩
    exact ⟨x, h.mem_iff.1 hx, e⟩
  · rintro ⟨x, hx, e⟩
    exact ⟨x, h.mem_iff.2 hx, e⟩

theorem perm_all_eq {α : Type} (f : α → Bool) {l1 l2 : List α} (h : l1.Perm l2) :
    l1.all f = l2.all f := by
  rw [Bool.eq_iff_iff, List.all_eq_true, List.all_eq_true]
  constructor
  · intro e x hx
    exact e x (h.mem_iff.2 hx)
  · intro e x hx
    exact e x (h.mem_iff.1 hx)

theorem perm_occurrences_eq (f : ContainerSecuritySpec → List String)
    {l1 l2 : List ContainerSecuritySpec} (h : l1.Perm l2) (c : String) :
    occurrences f l1 c = occurrences f l2 c := by
  unfold occurrences
  exact (h.map _).sum_eq

/-- The entries of the merged host-path map: the paths some pod spec reports, each with
the conjunction of the flags recorded for it. -/
theorem mem_hostPaths (pss : List PodSecuritySpec) (p : String) (v : Bool) :
    (p, v) ∈ pss.foldl (fun m sc => sc.MountHostPaths.foldl mergeHostPath m) [] ↔
      (∃ ps ∈ pss, p ∈ ps.MountHostPaths.keys) ∧ v = mergedReadOnly pss p := by
  obtain ⟨hnd, hget⟩ := foldl_hostPaths pss [] (by simp [GoMap.keys]) p
  simp only [GoMap.get?, Option.isSome_none, Bool.false_eq_true, false_or,
    Option.getD_none, Bool.true_and] at hget
  rw [GoMap.mem_iff_get? _ hnd, hget]
  by_cases hex : ∃ ps ∈ pss, p ∈ ps.MountHostPaths.keys
  · rw [if_pos hex]
    simp only [Option.some.injEq, hex, true_and]
    exact eq_comm
  · rw [if_neg hex]
    simp [hex]

theorem mem_allowedHostPaths (E : Bool) (pss : List PodSecuritySpec) (x : AllowedHostPath) :
    x ∈ (pss.foldl (fun m sc => sc.MountHostPaths.foldl mergeHostPath m) []).map
        (fun entry => ({ PathPrefix := entry.1, ReadOnly := entry.2 || E } : AllowedHostPath)) ↔
      (∃ ps ∈ pss, x.PathPrefix ∈ ps.MountHostPaths.keys) ∧
        x.ReadOnly = (mergedReadOnly pss x.PathPrefix || E) := by
  rw [List.mem_map]
  constructor
  · rintro ⟨⟨p, v⟩, hm, e⟩
    obtain ⟨h1, h2⟩ := (mem_hostPaths pss p v).1 hm
    rw [← e]
    exact ⟨h1, by rw [h2]⟩
  · rintro ⟨h1, h2⟩
    refine ⟨(x.PathPrefix, mergedReadOnly pss x.PathPrefix),
      (mem_hostPaths pss _ _).2 ⟨h1, rfl⟩, ?_⟩
    obtain ⟨path, ro⟩ := x
    simp only at h2
    simp only [h2]

theorem mem_keys_volumeTypes (pss : List PodSecuritySpec) (m : GoMap String Bool)
    (t : String) :
    t ∈ GoMap.keys
        (pss.foldl (fun m sc => sc.VolumeTypes.foldl (fun m t => m.set t true) m) m) ↔
      (∃ ps ∈ pss, t ∈ ps.VolumeTypes) ∨ t ∈ m.keys := by
  induction pss generalizing m with
  | nil => simp
  | cons ps rest ih =>
    simp only [List.foldl_cons, ih, mem_keys_foldl_set, List.mem_cons, exists_eq_or_imp]
    constructor
    · rintro (e | e | e)
      · exact Or.inl (Or.inr e)
      · exact Or.inl (Or.inl e)
      · exact Or.inr e
    · rintro ((e | e) | e)
      · exact Or.inr (Or.inl e)
      · exact Or.inl e
      · exact Or.inr (Or.inr e)

theorem perm_mergedReadOnly {l1 l2 : List PodSecuritySpec} (h : l1.Perm l2) (p : String) :
    mergedReadOnly l1 p = mergedReadOnly l2 p :=
  perm_all_eq _ h

theorem perm_exists_mem {α : Type} {l1 l2 : List α} (h : l1.Perm l2) (P : α → Prop) :
    (∃ x ∈ l1, P x) ↔ ∃ x ∈ l2, P x := by
  constructor
  · rintro ⟨x, hx, e⟩
    exact ⟨x, h.mem_iff.1 hx, e⟩
  · rintro ⟨x, hx, e⟩
    exact ⟨x, h.mem_iff.2 hx, e⟩

/-- C19: `GeneratePSP` does not depend on the order of its lists.  For permutations of
the container specs and of the pod specs, with the same namespace, clock and server
version, the two results are both nil or two policies that agree in every scalar field
and have the same allowed host paths with the same read-only flags, the same volume types
and the same allowed, default-add and required-drop capabilities. -/
theorem generatePSP_order_independent (env : Env) (css css2 : List ContainerSecuritySpec)
    (pss pss2 : List PodSecuritySpec) (ns ver : String)
    (hc : css2.Perm css) (hp : pss2.Perm pss) :
    sameResult (GeneratePSP env css2 pss2 ns ver) (GeneratePSP env css pss ns ver) := by
  by_cases h : css.length = 0 ∧ pss.length = 0
  · have e1 : css = [] := List.length_eq_zero.1 h.1
    have e2 : pss = [] := List.length_eq_zero.1 h.2
    subst e1 e2
    rw [hc.eq_nil, hp.eq_nil]
    simp [GeneratePSP, sameResult]
  · have h2 : ¬ (css2.length = 0 ∧ pss2.length = 0) := by
      rw [hc.length_eq, hp.length_eq]
      exact h
    rw [GeneratePSP_eq env css pss ns ver h, GeneratePSP_eq env css2 pss2 ns ver h2]
    show samePolicy _ _
    unfold samePolicy
    refine ⟨rfl, rfl, rfl, perm_any_eq _ hp, perm_any_eq _ hp, perm_any_eq _ hp,
      perm_any_eq _ hc, perm_any_eq _ hc, ?_, ?_, rfl, rfl, rfl, rfl, ?_, ?_, ?_, ?_, ?_⟩
    · dsimp only
      rw [hc.countP_eq, hc.length_eq]
    · dsimp only
      rw [hc.countP_eq, hc.countP_eq, hc.length_eq]
    · intro x
      dsimp only
      rw [mem_allowedHostPaths, mem_allowedHostPaths, perm_mergedReadOnly hp,
        perm_exists_mem hp]
    · intro x
      dsimp only [MapToArray]
      rw [mem_keys_volumeTypes, mem_keys_volumeTypes, perm_exists_mem hp]
    · intro x
      dsimp only
      rw [mem_allowedCapabilities, mem_allowedCapabilities, perm_exists_mem hc]
    · intro x
      dsimp only
      rw [mem_tally_filter (fun sc => sc.AddedCap), mem_tally_filter (fun sc => sc.AddedCap),
        perm_occurrences_eq _ hc, hc.length_eq]
    · intro x
      dsimp only
      rw [mem_tally_filter (fun sc => sc.DroppedCap),
        mem_tally_filter (fun sc => sc.DroppedCap), perm_occurrences_eq _ hc, hc.length_eq]

/-- Witness for C19: the container specs A, B and C and two pod specs, each list taken in
two orders. -/
theorem generatePSP_order_independent_witness :
    ([exampleB exampleCaps, exampleA exampleCaps, exampleC exampleCaps].Perm
        (exampleABC exampleCaps) ∧
      examplePodSpecs.reverse.Perm examplePodSpecs) ∧
    sameResult
      (GeneratePSP (exampleEnv false)
        [exampleB exampleCaps, exampleA exampleCaps, exampleC exampleCaps]
        examplePodSpecs.reverse "default" "v1.11")
      (GeneratePSP (exampleEnv false) (exampleABC exampleCaps) examplePodSpecs
        "default" "v1.11") :=
  ⟨⟨List.Perm.swap _ _ _, List.reverse_perm _⟩,
    generatePSP_order_independent (exampleEnv false) (exampleABC exampleCaps) _
      examplePodSpecs _ "default" "v1.11" (List.Perm.swap _ _ _) (List.reverse_perm _)⟩

end Generator
